import Mathlib

/-!
Verification development for the DWARF-driven stack unwinder and source/line
resolver of probe-rs (`src/probe-rs/src/debug/debug_info.rs`).

The pure functions (`add_to_address`, `unwind_program_counter_register`) are
translated directly from the source.  The stateful unwinder (`unwind_impl`,
`get_stackframe_info`) is embedded with explicit state passing; the DWARF
machinery that lives outside the translated file (unit walking, line programs,
call-frame information, variable caches) is represented by oracle fields on a
`DebugInfoModel` record, mirroring the way the source consults those
collaborators through method calls.  Rust panics (`unimplemented!`, `unwrap`)
are modelled by a dedicated `RunResult.panicked` outcome, distinct from
returned `Err` values.
-/

set_option maxRecDepth 4000

namespace Spec2Proof

/-! ## Register values

Modelled from the spec: `RegisterValue` lives in `crate::core` (not part of the
translated file).  Spec section 3: Variant: 32-bit | 64-bit | 128-bit unsigned;
supports "is zero", "is max of its width", and fallible narrowing conversion.
Payloads are kept as `Nat`; theorems carry width bounds where relevant. -/
inductive RegisterValue where
  | U32 (v : Nat)
  | U64 (v : Nat)
  | U128 (v : Nat)
deriving DecidableEq, Repr

/-- Modelled from the spec: `is_zero` compares the held variant against zero. -/
def RegisterValue.is_zero : RegisterValue → Bool
  | .U32 v => v == 0
  | .U64 v => v == 0
  | .U128 v => v == 0

/-- Modelled from the spec: `is_max_value` compares against the width-specific
all-ones pattern of the held variant (for 32-bit: 0xFFFF_FFFF, etc.). -/
def RegisterValue.is_max_value : RegisterValue → Bool
  | .U32 v => v == 2 ^ 32 - 1
  | .U64 v => v == 2 ^ 64 - 1
  | .U128 v => v == 2 ^ 128 - 1

/-- Modelled from the spec: fallible narrowing conversion to 64 bits
(`TryInto<u64>`); a 128-bit value narrows only when it fits. -/
def RegisterValue.try_into_u64 : RegisterValue → Except String Nat
  | .U32 v => .ok v
  | .U64 v => .ok v
  | .U128 v => if v < 2 ^ 64 then .ok v else .error "U128 too large"

/-- Modelled from the spec: fallible narrowing conversion to 32 bits
(`TryInto<u32>`), failing whenever the held value does not fit in 32 bits. -/
def RegisterValue.try_into_u32 : RegisterValue → Except String Nat
  | .U32 v => .ok v
  | .U64 v => if v < 2 ^ 32 then .ok v else .error "U64 too large"
  | .U128 v => if v < 2 ^ 32 then .ok v else .error "U128 too large"

/-- Modelled from the spec: `RegisterValue::from(u64)` wraps a `u64` into the
64-bit variant. -/
def RegisterValue.fromU64 (v : Nat) : RegisterValue := .U64 v

/-- Instruction sets, from `probe_rs_target::InstructionSet` (external crate);
only the cases distinguished by the unwinder are modelled. -/
inductive InstructionSet where
  | Thumb2
  | A32
  | A64
  | RV32
deriving DecidableEq, Repr

/-- `add_to_address` translated from `debug_info.rs`.  Widths other than 4 or 8
hit a `panic!` in the source; that is modelled as `none`.
Rust semantics preserved: for width 4 both operands are truncated to `u32`
(`address as u32`, `offset as u32` / `offset.unsigned_abs() as u32`),
`checked_add` overflow yields 0, and negative offsets use `saturating_sub`. -/
def add_to_address (address : Nat) (offset : Int) (address_size_in_bytes : Nat) :
    Option Nat :=
  if address_size_in_bytes = 4 then
    if 0 ≤ offset then
      let a := address % 2 ^ 32
      let o := offset.toNat % 2 ^ 32
      some (if a + o < 2 ^ 32 then a + o else 0)
    else
      let a := address % 2 ^ 32
      let o := offset.natAbs % 2 ^ 32
      some (a - o)
  else if address_size_in_bytes = 8 then
    if 0 ≤ offset then
      let o := offset.toNat
      some (if address + o < 2 ^ 64 then address + o else 0)
    else
      some (address - offset.natAbs)
  else
    none

/-- `unwind_program_counter_register` translated from `debug_info.rs`.  The
`register_rule_string` out-parameter of the source is a log string and carries
no program state, so it is dropped here.  `& !0b1` is the 32-bit clear-low-bit
mask 0xFFFFFFFE. -/
def unwind_program_counter_register (return_address : RegisterValue)
    (instruction_set : Option InstructionSet) : Option RegisterValue :=
  if return_address.is_max_value || return_address.is_zero then
    none
  else
    match return_address with
    | .U32 ra =>
        if instruction_set = some .Thumb2 then
          some (.U32 (ra &&& 0xFFFFFFFE))
        else
          some (.U32 ra)
    | .U64 ra => some (.U64 ra)
    | .U128 _ => none

/-! ## Registers

Modelled from the spec: `DebugRegister` / `DebugRegisters` live in
`debug/registers.rs` (not part of the translated file).  Spec section 3: a
`DebugRegister` is `(dwarf_id, core_register, value)`; the core register
carries an identity, a role set and an `UnwindRule`; `DebugRegisters` is an
ordered sequence with typed accessors by role and by DWARF id. -/
inductive RegisterRole where
  | ProgramCounter
  | StackPointer
  | FramePointer
  | ReturnAddress
  | Core
deriving DecidableEq, Repr

inductive UnwindRule where
  | Preserve
  | Clear
  | SpecialRule
deriving DecidableEq, Repr

structure CoreRegister where
  id : Nat
  roles : List RegisterRole
  unwind_rule : UnwindRule
deriving DecidableEq, Repr

def CoreRegister.register_has_role (r : CoreRegister) (role : RegisterRole) : Bool :=
  r.roles.contains role

structure DebugRegister where
  dwarf_id : Option Nat
  core_register : CoreRegister
  value : Option RegisterValue
deriving DecidableEq, Repr

/-- Modelled from the spec: sentinel test lifted over a possibly missing value
(a register without a value is neither zero nor max). -/
def DebugRegister.is_max_value (r : DebugRegister) : Bool :=
  match r.value with
  | some v => v.is_max_value
  | none => false

/-- Modelled from the spec: see `DebugRegister.is_max_value`. -/
def DebugRegister.is_zero (r : DebugRegister) : Bool :=
  match r.value with
  | some v => v.is_zero
  | none => false

/-- Modelled from the spec: a register currently holding a 32-bit value. -/
def DebugRegister.is_u32 (r : DebugRegister) : Bool :=
  match r.value with
  | some (.U32 _) => true
  | _ => false

structure DebugRegisters where
  regs : List DebugRegister
deriving DecidableEq, Repr

def DebugRegisters.get_register_with_role (rs : DebugRegisters)
    (role : RegisterRole) : Option DebugRegister :=
  rs.regs.find? (fun r => r.core_register.register_has_role role)

def DebugRegisters.get_program_counter (rs : DebugRegisters) : Option DebugRegister :=
  rs.get_register_with_role .ProgramCounter

def DebugRegisters.get_return_address (rs : DebugRegisters) : Option DebugRegister :=
  rs.get_register_with_role .ReturnAddress

def DebugRegisters.get_frame_pointer (rs : DebugRegisters) : Option DebugRegister :=
  rs.get_register_with_role .FramePointer

def DebugRegisters.get_register (rs : DebugRegisters) (id : Nat) : Option DebugRegister :=
  rs.regs.find? (fun r => r.core_register.id == id)

def DebugRegisters.get_register_by_dwarf_id (rs : DebugRegisters)
    (dwarf_id : Nat) : Option DebugRegister :=
  rs.regs.find? (fun r => r.dwarf_id == some dwarf_id)

/-- Modelled from the spec: `address_size_bytes ∈ {4, 8}` is derived from the
program-counter register's width; default 4 when the width is not visible. -/
def DebugRegisters.get_address_size_bytes (rs : DebugRegisters) : Nat :=
  match rs.get_program_counter with
  | some r =>
    match r.value with
    | some (.U32 _) => 4
    | some (.U64 _) => 8
    | some (.U128 _) => 16
    | none => 4
  | none => 4

/-- Replace the value of the first register carrying `role` (the borrow
returned by `get_register_mut_by_role` / `get_program_counter_mut`); `none`
when no register carries the role. -/
def set_first_with_role : List DebugRegister → RegisterRole →
    Option RegisterValue → Option (List DebugRegister)
  | [], _, _ => none
  | r :: rest, role, v =>
      if r.core_register.register_has_role role then
        some ({ r with value := v } :: rest)
      else
        (set_first_with_role rest role v).map (r :: ·)

def DebugRegisters.set_value_by_role (rs : DebugRegisters) (role : RegisterRole)
    (v : Option RegisterValue) : Option DebugRegisters :=
  (set_first_with_role rs.regs role v).map (⟨·⟩)

/-! ## Memory and errors -/

/-- The external `MemoryInterface`: a byte-addressed read port (spec section
6).  `none` models a transport error at that byte. -/
def Memory := Nat → Option Nat

/-- Little-endian read of `n` bytes starting at `addr`
(`u32::from_le_bytes` / `u64::from_le_bytes` in the source). -/
def mem_read (m : Memory) (addr : Nat) : Nat → Option Nat
  | 0 => some 0
  | n + 1 =>
      (m addr).bind fun b =>
        (mem_read m (addr + 1) n).map fun rest => b + 256 * rest

/-- `DebugError` per spec section 6 (the enum itself lives in
`debug/mod.rs`, outside the translated file); `Register` doubles for
`crate::Error::Register` since the unwinder reports narrowing failures
through it. -/
inductive DebugError where
  | Io (msg : String)
  | Parse (msg : String)
  | MissingDebugInfo
  | Register (msg : String)
  | Other (msg : String)
deriving DecidableEq, Repr

/-- Outcome of running a fallible, possibly panicking piece of code: a normal
return, a returned `Err`, or a Rust panic (`unimplemented!`, failed `unwrap`,
`panic!`).  Panics are kept distinct from returned errors. -/
inductive RunResult (α : Type) where
  | ok (val : α)
  | err (e : DebugError)
  | panicked (msg : String)
deriving Repr, DecidableEq

def RunResult.bind {α β : Type} : RunResult α → (α → RunResult β) → RunResult β
  | .ok a, f => f a
  | .err e, _ => .err e
  | .panicked m, _ => .panicked m

instance : Monad RunResult where
  pure := .ok
  bind := RunResult.bind

/-! ## Paths

Paths are handled by the external `typed_path` crate.  Modelled from the spec
(section 6): a path is a separator-split component list plus an
absolute/relative flag; normalization is lexical (collapse `.`, resolve `..`
against surviving components), with no filesystem access. -/
structure PathModel where
  absolute : Bool
  segments : List String
deriving DecidableEq, Repr

/-- `TypedPathBuf::join`: an absolute right operand replaces the left one. -/
def PathModel.join (a b : PathModel) : PathModel :=
  if b.absolute then b else ⟨a.absolute, a.segments ++ b.segments⟩

def PathModel.is_relative (p : PathModel) : Bool := !p.absolute

/-- `file_name`: the last component. -/
def PathModel.file_name (p : PathModel) : Option String := p.segments.getLast?

/-- `parent`: the path with the last component removed (`none` at a root). -/
def PathModel.parent (p : PathModel) : Option PathModel :=
  match p.segments with
  | [] => none
  | _ => some ⟨p.absolute, p.segments.dropLast⟩

/-- Lexical normalization (spec section 6): drops `.`, resolves `..` against a
surviving component; a leading `..` is kept on relative paths and dropped at
the root of absolute ones. -/
def normalize_segments (absolute : Bool) : List String → List String → List String
  | acc, [] => acc.reverse
  | acc, s :: rest =>
      if s = "." then normalize_segments absolute acc rest
      else if s = ".." then
        match acc with
        | [] => if absolute then normalize_segments absolute [] rest
                else normalize_segments absolute [".."] rest
        | top :: acc' =>
            if top = ".." then normalize_segments absolute (".." :: acc) rest
            else normalize_segments absolute acc' rest
      else normalize_segments absolute (s :: acc) rest

def PathModel.normalize (p : PathModel) : PathModel :=
  ⟨p.absolute, normalize_segments p.absolute [] p.segments⟩

/-- `canonical_path_eq` translated from `debug_info.rs`: lexically normalize
both paths and compare. -/
def canonical_path_eq (primary_path secondary_path : PathModel) : Bool :=
  primary_path.normalize == secondary_path.normalize

/-! ## Source locations and line programs -/

/-- `gimli::ColumnType`: the line program's left-edge sentinel or a column. -/
inductive ColumnType where
  | LeftEdge
  | Column (n : Nat)
deriving DecidableEq, Repr

structure SourceLocation where
  line : Option Nat
  column : Option ColumnType
  file : Option String
  directory : Option PathModel
  low_pc : Option Nat
  high_pc : Option Nat
deriving DecidableEq, Repr

/-- A file entry of a line-program header.  `path_name` is the decoded path
attribute (`none` models a failed UTF-8 decode); `directory` is the entry's
directory after attribute lookup and decoding, collapsed into one option. -/
structure FileEntryModel where
  path_name : Option PathModel
  directory : Option PathModel
deriving DecidableEq, Repr

/-- One row of a line program (`gimli::LineRow` restricted to the fields the
translated code reads). -/
structure RowModel where
  address : Nat
  line : Option Nat
  column : ColumnType
  file : Option FileEntryModel
deriving DecidableEq, Repr

/-- One line-program sequence: an address range plus the rows obtained by
resuming the program from it. -/
structure SequenceModel where
  start : Nat
  stop : Nat
  rows : List RowModel
deriving DecidableEq, Repr

/-- A source statement as produced by `SourceStatements::new`
(`source_statement.rs`, not part of the translated file); modelled from the
spec as an oracle result: line, column, file index and the statement's
instruction range (`low_pc()` is the range start). -/
structure SourceStatementModel where
  line : Option Nat
  column : ColumnType
  file_index : Nat
  low_pc : Nat
  range_end : Nat
deriving DecidableEq, Repr

/-- A compilation unit's line program: header file entries, the fallible full
row iteration used by breakpoint lookup, the fallible sequence decomposition
used by PC-to-location lookup, the header's file lookup by index, and the
source-statement construction oracle (keyed by the program-counter address it
is built from). -/
structure LineProgramModel where
  file_names : List FileEntryModel
  rows : Except DebugError (List RowModel)
  sequences : Except DebugError (List SequenceModel)
  file : Nat → Option FileEntryModel
  source_statements : Nat → Except DebugError (List SourceStatementModel)

/-! ## Function DIEs and variable caches -/

/-- A `FunctionDie` (function_die.rs, not part of the translated file),
modelled from the spec (section 4.4): PC range, inline flag, resolved name,
call-site location for inlined entries, and an optional frame base. -/
structure FunctionDie where
  low_pc : Nat
  high_pc : Nat
  inline : Bool
  name : Option String
  call_location : Option SourceLocation
  frame_base : Option Nat
deriving DecidableEq, Repr

def FunctionDie.is_inline (f : FunctionDie) : Bool := f.inline

def FunctionDie.function_name (f : FunctionDie) : Option String := f.name

def FunctionDie.inline_call_location (f : FunctionDie) : Option SourceLocation :=
  f.call_location

/-- Variable node kinds, modelled from the spec (section 3): deferred
reference/type/direct-lookup expansion, or a leaf (standing for every node
kind that has already been recursed to its maximum). -/
inductive VariableNodeType where
  | ReferenceOffset (off : Nat)
  | TypeOffset (off : Nat)
  | DirectLookup
  | Leaf
deriving DecidableEq, Repr

/-- A cached variable, modelled from the spec: keyed arena node with a parent
edge; only the fields read by `cache_deferred_variables` are kept. -/
structure Variable where
  variable_key : Nat
  parent_key : Option Nat
  valid : Bool
  variable_node_type : VariableNodeType
  unit_header_offset : Option Nat
deriving DecidableEq, Repr

def Variable.is_valid (v : Variable) : Bool := v.valid

/-- The variable arena, modelled from the spec (sections 3, 9): a rooted DAG
stored as nodes with parent keys. -/
structure VariableCache where
  vars : List Variable
deriving DecidableEq, Repr

/-- `VariableCache::has_children` (variable cache lives outside the translated
file): whether any node points at `parent` as its parent; fallible in the
source, hence the `Except`. -/
def VariableCache.has_children (c : VariableCache) (parent : Variable) :
    Except DebugError Bool :=
  .ok (c.vars.any (fun v => v.parent_key == some parent.variable_key))

/-! ## Compilation units and the DebugInfo model

A compilation unit as seen through the translated code: the unit walking,
DIE parsing and attribute decoding live in `unit_info.rs` / gimli (outside the
translated file) and are represented as oracle fields, analogous to the method
calls the source makes.  Units that fail `dwarf.unit(header)` are skipped by
the source and are therefore not modelled. -/
structure UnitModel where
  /-- `unit.header.address_size()`. -/
  address_size : Nat
  /-- `dwarf.unit_ranges(&unit)` flattened into `[begin, end)` pairs. -/
  ranges : Except DebugError (List (Nat × Nat))
  /-- `unit.line_program`. -/
  line_program : Option (LineProgramModel)
  /-- `unit.comp_dir`: outer `none` = attribute absent, inner `none` = the
  UTF-8 decode fails. -/
  comp_dir : Option (Option PathModel)
  /-- `unit_info.get_function_dies(address, …, true)` (function DIE walker). -/
  get_function_dies : Nat → Except DebugError (List FunctionDie)
  /-- Outcome of `create_static_scope_cache` for this unit. -/
  static_cache : Except DebugError VariableCache
  /-- Outcome of `create_function_scope_cache` for a function of this unit. -/
  function_cache : FunctionDie → Except DebugError VariableCache

/-- `gimli::CfaRule`. -/
inductive CfaRule where
  | RegisterAndOffset (register : Nat) (offset : Int)
  | Expression
deriving Repr

/-- `gimli::RegisterRule`, with every rule the source leaves to
`unimplemented!()` collapsed into one constructor. -/
inductive RegisterRuleModel where
  | Undefined
  | SameValue
  | Offset (n : Int)
  | Unimplemented
deriving DecidableEq, Repr

/-- `gimli::UnwindTableRow`: the CFA rule plus the per-DWARF-id register
rules (`row.register(Register(n))`). -/
structure UnwindTableRow where
  cfa : CfaRule
  register : Nat → RegisterRuleModel

/-- The `DebugInfo` object: its units, plus the `.debug_frame` lookup
(`get_unwind_info`) as an oracle mapping a program counter to the unwind
table row (or the lookup error). -/
structure DebugInfoModel where
  units : List UnitModel
  unwind_row : Nat → Except DebugError UnwindTableRow

/-! ## `get_path` and `find_file_and_directory` (translated) -/

/-- `DebugInfo::get_path` translated from `debug_info.rs`: combine the file
entry's directory with its path name; a relative result is prefixed with the
unit's compilation directory (whose failed UTF-8 decode aborts with `none`
through the `.ok()?`). -/
def get_path (unit : UnitModel) (file_entry : FileEntryModel) : Option PathModel := do
  let name_path ← file_entry.path_name
  let combined_path :=
    match file_entry.directory with
    | some dir_path => dir_path.join name_path
    | none => name_path
  if combined_path.is_relative then
    match unit.comp_dir with
    | some (some comp_dir) => some (comp_dir.join combined_path)
    | some none => none
    | none => some combined_path
  else
    some combined_path

/-- `DebugInfo::find_file_and_directory` translated from `debug_info.rs`. -/
def find_file_and_directory (unit : UnitModel) (file_entry : FileEntryModel) :
    Option (Option String × Option PathModel) :=
  (get_path unit file_entry).map fun combined_path =>
    (combined_path.file_name, combined_path.parent)

/-! ## `get_source_location` (translated) -/

/-- The `SourceLocation` built from a row inside a sequence: the row's line
and column, the row's file resolved through `find_file_and_directory`, and the
sequence bounds truncated to `u32` (`target_seq.start as u32`). -/
def row_location (unit : UnitModel) (seq : SequenceModel) (row : RowModel) :
    Option SourceLocation :=
  (row.file.bind (find_file_and_directory unit)).map fun fd =>
    { line := row.line
      column := some row.column
      file := fd.1
      directory := fd.2
      low_pc := some (seq.start % 2 ^ 32)
      high_pc := some (seq.stop % 2 ^ 32) }

/-- The row walk of `get_source_location`: rows above the address report the
previous row, an exact hit reports the current row, and a failed file
resolution falls through to the next row (always remembering the current row
as the new previous row). -/
def scan_rows (unit : UnitModel) (seq : SequenceModel) (address : Nat) :
    List RowModel → Option RowModel → Option SourceLocation
  | [], _ => none
  | row :: rest, previous_row =>
      if address < row.address then
        match previous_row.bind (row_location unit seq) with
        | some loc => some loc
        | none => scan_rows unit seq address rest (some row)
      else if row.address = address then
        match row_location unit seq row with
        | some loc => some loc
        | none => scan_rows unit seq address rest (some row)
      else
        scan_rows unit seq address rest (some row)

/-- Control flow of the per-unit range walk: a hit, the `return None` taken
when the unit has no line program, or moving on to the next unit. -/
inductive LookupFlow where
  | found (loc : SourceLocation)
  | abort
  | moveOn
deriving DecidableEq, Repr

/-- The range walk of `get_source_location` for one unit.  A sequence-decode
error or an unmatched address falls through to the next range; a unit whose
range contains the address but which has no line program aborts the whole
lookup (`return None` in the source). -/
def scan_ranges (unit : UnitModel) (address : Nat) :
    List (Nat × Nat) → LookupFlow
  | [] => .moveOn
  | range :: rest =>
      if range.1 ≤ address ∧ address < range.2 then
        match unit.line_program with
        | none => .abort
        | some lp =>
            match lp.sequences with
            | .error _ => scan_ranges unit address rest
            | .ok seqs =>
                match seqs.find? (fun seq => seq.start ≤ address && address < seq.stop) with
                | some target_seq =>
                    match scan_rows unit target_seq address target_seq.rows none with
                    | some loc => .found loc
                    | none => scan_ranges unit address rest
                | none => scan_ranges unit address rest
      else
        scan_ranges unit address rest

def get_source_location_units (address : Nat) : List UnitModel → Option SourceLocation
  | [] => none
  | unit :: rest =>
      match unit.ranges with
      | .error _ => get_source_location_units address rest
      | .ok ranges =>
          match scan_ranges unit address ranges with
          | .found loc => some loc
          | .abort => none
          | .moveOn => get_source_location_units address rest

/-- `DebugInfo::get_source_location` translated from `debug_info.rs`. -/
def get_source_location (di : DebugInfoModel) (address : Nat) : Option SourceLocation :=
  get_source_location_units address di.units

/-! ## Stack frames and `get_stackframe_info` (translated) -/

structure StackFrame where
  id : Nat
  function_name : String
  source_location : Option SourceLocation
  registers : DebugRegisters
  pc : RegisterValue
  frame_base : Option Nat
  is_inlined : Bool
  static_variables : Option VariableCache
  local_variables : Option VariableCache
deriving DecidableEq, Repr

/-- Zero-padded hexadecimal with the `{:#0w$x}` convention (the `0x` prefix
counts towards the width). -/
def format_hex_padded (n width : Nat) : String :=
  let ds := Nat.toDigits 16 n
  "0x" ++ String.mk (List.replicate (width - (ds.length + 2)) '0' ++ ds)

/-- The `<unknown function @ 0x…>` placeholder name; the width matches the
register address size. -/
def unknown_function_name (address : Nat) (address_size_bytes : Nat) : String :=
  "<unknown function @ " ++ format_hex_padded address (address_size_bytes * 2 + 2) ++ ">"

/-- The frame `pc` construction used throughout `unwind_impl` and
`get_stackframe_info`: `4 => U32(address as u32), 8 => U64(address),
_ => RegisterValue::from(address)`. -/
def wrap_address (address_size_bytes address : Nat) : RegisterValue :=
  match address_size_bytes with
  | 4 => .U32 (address % 2 ^ 32)
  | 8 => .U64 address
  | _ => RegisterValue.fromU64 address

/-- `Result`-to-`Option` with logging, as `map_or_else(|e| {log; None}, Some)`
does for the variable caches. -/
def cache_or_none (r : Except DebugError VariableCache) : Option VariableCache :=
  match r with
  | .ok c => some c
  | .error _ => none

/-- The inlined-function walk of `get_stackframe_info`: every function except
the last is emitted with the first instruction of its inlined callee as call
site, skipping call sites outside `(address_size, u32::MAX)`; the source
asserts that each callee is inline. -/
def build_inlined_frames (unit : UnitModel) (unwind_registers : DebugRegisters)
    (unknown_function : String) :
    List FunctionDie → Nat → RunResult (List StackFrame × Nat)
  | [], id => .ok ([], id)
  | [_], id => .ok ([], id)
  | function_die :: next_function :: rest, id =>
      if !next_function.is_inline then
        .panicked "assertion failed: next_function.is_inline()"
      else
        let function_name := function_die.function_name.getD unknown_function
        let site_ok := unit.address_size < next_function.low_pc &&
          next_function.low_pc < 2 ^ 32 - 1
        if site_ok then
          let frame : StackFrame :=
            { id
              function_name
              source_location := next_function.inline_call_location
              registers := unwind_registers
              pc := RegisterValue.fromU64 next_function.low_pc
              frame_base := function_die.frame_base
              is_inlined := function_die.is_inline
              static_variables := cache_or_none unit.static_cache
              local_variables := cache_or_none (unit.function_cache function_die) }
          match build_inlined_frames unit unwind_registers unknown_function
              (next_function :: rest) (id + 1) with
          | .ok (frames, id') => .ok (frame :: frames, id')
          | out => out
        else
          build_inlined_frames unit unwind_registers unknown_function
            (next_function :: rest) id

/-- The frame for the last (innermost, possibly non-inlined) function of the
unit: its `pc` is the lookup address in the register width. -/
def build_last_frame (di : DebugInfoModel) (unit : UnitModel)
    (unwind_registers : DebugRegisters) (unknown_function : String)
    (address : Nat) (last_function : FunctionDie) (id : Nat) : StackFrame :=
  { id
    function_name := last_function.function_name.getD unknown_function
    source_location := get_source_location di address
    registers := unwind_registers
    pc := wrap_address unwind_registers.get_address_size_bytes address
    frame_base := last_function.frame_base
    is_inlined := last_function.is_inline
    static_variables := cache_or_none unit.static_cache
    local_variables := cache_or_none (unit.function_cache last_function) }

def get_stackframe_info_units (di : DebugInfoModel) (address : Nat)
    (unwind_registers : DebugRegisters) (unknown_function : String) :
    List UnitModel → Nat → RunResult (List StackFrame × Nat)
  | [], id => .ok ([], id)
  | unit :: rest, id =>
      match unit.get_function_dies address with
      | .error e => .err e
      | .ok functions =>
          if functions.isEmpty then
            get_stackframe_info_units di address unwind_registers unknown_function rest id
          else
            match build_inlined_frames unit unwind_registers unknown_function functions id with
            | .err e => .err e
            | .panicked m => .panicked m
            | .ok (inlined, id') =>
                match functions.getLast? with
                | some last_function =>
                    .ok (inlined ++
                      [build_last_frame di unit unwind_registers unknown_function
                        address last_function id'], id' + 1)
                | none => .ok (inlined, id')

/-- `DebugInfo::get_stackframe_info` translated from `debug_info.rs`; frame
ids come from the global `get_sequential_key` counter, threaded here
explicitly from `id`. -/
def get_stackframe_info (di : DebugInfoModel) (address : Nat)
    (unwind_registers : DebugRegisters) (id : Nat) :
    RunResult (List StackFrame × Nat) :=
  let unknown_function :=
    unknown_function_name address unwind_registers.get_address_size_bytes
  get_stackframe_info_units di address unwind_registers unknown_function di.units id

/-! ## Exception interface -/

/-- `ExceptionInfo` (spec section 6): a description plus the register set of
the frame that invoked the exception handler. -/
structure ExceptionInfo where
  description : String
  calling_frame_registers : DebugRegisters
deriving DecidableEq, Repr

/-- The architecture-specific `ExceptionInterface::exception_details` port. -/
def ExceptionHandler := Memory → DebugRegisters → Except DebugError (Option ExceptionInfo)

/-- PART 0 of the unwind loop: probe for exception context; both `Ok(None)`
and an error (logged in the source) yield no context. -/
def exception_probe (exception_handler : ExceptionHandler) (memory : Memory)
    (unwind_registers : DebugRegisters) : Option ExceptionInfo :=
  match exception_handler memory unwind_registers with
  | .ok info => info
  | .error _ => none

/-! ## `unwind_register` (translated) -/

/-- Outcome of one per-register unwind: continue with the register's new value
and the (possibly updated) scratch return address, stop the whole unwind
(`ControlFlow::Break`), or panic. -/
inductive UnwindRegisterOutcome where
  | cont (value : Option RegisterValue) (unwound_return_address : Option RegisterValue)
  | brk
  | panicked (msg : String)
deriving Repr

/-- `unwind_register` translated from `debug_info.rs`.  The rule is looked up
by the register's DWARF id in the unwind row (`Undefined` when either is
missing); `Undefined` falls back to role-specific rules, `SameValue` copies
the callee value, `Offset` loads from `CFA + n`, and every other gimli rule is
`unimplemented!()`. -/
def unwind_register (debug_register : DebugRegister)
    (callee_frame_registers : DebugRegisters)
    (unwind_info : Option UnwindTableRow) (unwind_cfa : Option Nat)
    (unwound_return_address : Option RegisterValue) (memory : Memory)
    (instruction_set : Option InstructionSet) : UnwindRegisterOutcome :=
  let register_rule :=
    (debug_register.dwarf_id.bind fun register_position =>
      unwind_info.map fun info => info.register register_position).getD
      RegisterRuleModel.Undefined
  match register_rule with
  | .Undefined =>
      if debug_register.core_register.register_has_role .FramePointer then
        .cont (callee_frame_registers.get_frame_pointer.bind (·.value))
          unwound_return_address
      else if debug_register.core_register.register_has_role .StackPointer then
        .cont
          (unwind_cfa.map fun cfa =>
            if debug_register.is_u32 then
              .U32 ((cfa % 2 ^ 32) &&& 0xFFFFFFFC)
            else
              .U64 (cfa &&& 0xFFFFFFFFFFFFFFFC))
          unwound_return_address
      else if debug_register.core_register.register_has_role .ReturnAddress then
        .cont none debug_register.value
      else if debug_register.core_register.register_has_role .ProgramCounter then
        .cont
          (unwound_return_address.bind fun return_address =>
            unwind_program_counter_register return_address instruction_set)
          unwound_return_address
      else
        match debug_register.core_register.unwind_rule with
        | .Preserve =>
            .cont
              ((callee_frame_registers.get_register debug_register.core_register.id).bind
                (·.value))
              unwound_return_address
        | .Clear => .cont none unwound_return_address
        | .SpecialRule => .cont none unwound_return_address
  | .SameValue =>
      .cont
        ((callee_frame_registers.get_register debug_register.core_register.id).bind
          (·.value))
        unwound_return_address
  | .Offset address_offset =>
      match unwind_cfa with
      | none => .brk
      | some unwind_cfa =>
          let address_size := callee_frame_registers.get_address_size_bytes
          match add_to_address unwind_cfa address_offset address_size with
          | none => .panicked "UNWIND: Address size not supported"
          | some previous_frame_register_address =>
              let read_result : Option RegisterValue :=
                match address_size with
                | 4 => (mem_read memory previous_frame_register_address 4).map (.U32 ·)
                | 8 => (mem_read memory previous_frame_register_address 8).map (.U64 ·)
                | _ => none
              if address_size ≠ 4 ∧ address_size ≠ 8 then
                .brk
              else
                match read_result with
                | some register_value =>
                    if debug_register.core_register.register_has_role .ReturnAddress then
                      .cont (some register_value) (some register_value)
                    else
                      .cont (some register_value) unwound_return_address
                | none => .brk
  | .Unimplemented => .panicked "not implemented"

/-- Outcome of iterating `unwind_register` over the full working register
set. -/
inductive RegistersLoopOutcome where
  | done (regs : List DebugRegister)
  | stopped
  | panicked (msg : String)
deriving Repr

/-- PART 2-c of the unwind loop: apply `unwind_register` to each working
register in order, threading the scratch return address. -/
def unwind_registers_loop (callee_frame_registers : DebugRegisters)
    (unwind_info : UnwindTableRow) (unwind_cfa : Option Nat) (memory : Memory)
    (instruction_set : Option InstructionSet) :
    List DebugRegister → Option RegisterValue → RegistersLoopOutcome
  | [], _ => .done []
  | debug_register :: rest, unwound_return_address =>
      match unwind_register debug_register callee_frame_registers
          (some unwind_info) unwind_cfa unwound_return_address memory
          instruction_set with
      | .panicked m => .panicked m
      | .brk => .stopped
      | .cont value unwound_return_address' =>
          match unwind_registers_loop callee_frame_registers unwind_info
              unwind_cfa memory instruction_set rest unwound_return_address' with
          | .done regs => .done ({ debug_register with value := value } :: regs)
          | out => out

/-! ## The unwind loop (translated) -/

/-- One iteration of the `'unwind` loop: terminate returning the frames
pushed this iteration, continue with new working registers, return an `Err`,
or panic. -/
inductive StepOut where
  | ret (frames : List StackFrame)
  | next (frames : List StackFrame) (regs : DebugRegisters) (next_id : Nat)
  | fail (e : DebugError)
  | panicked (msg : String)
deriving Repr

/-- PART 1-a alternative branches: the frame used for the current iteration
when `get_stackframe_info` produced none — an exception placeholder when
exception context was detected (setting `only_exception`), else an
unknown-function frame.  Returns the frame, the `only_exception` flag and the
next fresh id. -/
def iteration_return_frame (di : DebugInfoModel)
    (exception_info : Option ExceptionInfo) (frame_pc : Nat)
    (unwind_registers : DebugRegisters) (cached_head : Option StackFrame)
    (id : Nat) : StackFrame × Bool × Nat :=
  match cached_head with
  | some frame => (frame, false, id)
  | none =>
      match exception_info with
      | some exception_info =>
          ({ id
             function_name := exception_info.description
             source_location := none
             registers := unwind_registers
             pc := wrap_address unwind_registers.get_address_size_bytes frame_pc
             frame_base := none
             is_inlined := false
             static_variables := none
             local_variables := none }, true, id + 1)
      | none =>
          ({ id
             function_name :=
               unknown_function_name frame_pc unwind_registers.get_address_size_bytes
             source_location := get_source_location di frame_pc
             registers := unwind_registers
             pc := wrap_address unwind_registers.get_address_size_bytes frame_pc
             frame_base := none
             is_inlined := false
             static_variables := none
             local_variables := none }, false, id + 1)

/-- The post-unwind `EXC_RETURN` detection (end of the loop body): the new PC
is narrowed to `u32` with an unchecked `unwrap`; a top nibble of `0xF`
restores the raw value into the return-address register (another `unwrap`),
asks the exception interface again (`?` on errors), and pushes a synthetic
exception frame when context is found. -/
def post_unwind_check (exception_handler : ExceptionHandler) (memory : Memory)
    (frame_pc : Nat) (pushed : List StackFrame)
    (unwind_registers : DebugRegisters) (id : Nat) : StepOut :=
  match unwind_registers.get_program_counter.bind (·.value) with
  | none => .next pushed unwind_registers id
  | some value =>
      match value.try_into_u32 with
      | .error _ => .panicked "called `Result::unwrap()` on an `Err` value"
      | .ok value =>
          if (value >>> 28) &&& 0xF == 0xF then
            match unwind_registers.set_value_by_role .ReturnAddress
                (some (.U32 value)) with
            | none => .panicked "called `Option::unwrap()` on a `None` value"
            | some unwind_registers =>
                match exception_handler memory unwind_registers with
                | .error e => .fail e
                | .ok none => .next pushed unwind_registers id
                | .ok (some details) =>
                    let unwind_registers := details.calling_frame_registers
                    let exception_frame : StackFrame :=
                      { id
                        function_name := details.description
                        source_location := none
                        registers := unwind_registers
                        pc := wrap_address unwind_registers.get_address_size_bytes
                          frame_pc
                        frame_base := none
                        is_inlined := false
                        static_variables := none
                        local_variables := none }
                    .next (pushed ++ [exception_frame]) unwind_registers (id + 1)
          else
            .next pushed unwind_registers id

/-- PART 2 of the loop body, from the CFI lookup on: the no-CFI fallback
(synthesize a PC from the return address when nothing has been emitted yet),
the CFA computation, the per-register unwind and the post-unwind exception
detection.  `stack_frames_empty` is `stack_frames.is_empty()` at the lookup
point, i.e. after the inlined frames were pushed. -/
def unwind_step_cfi (di : DebugInfoModel) (exception_handler : ExceptionHandler)
    (instruction_set : Option InstructionSet) (memory : Memory)
    (stack_frames_empty : Bool) (unwind_registers : DebugRegisters)
    (frame_pc : Nat) (inlined : List StackFrame) (return_frame : StackFrame)
    (id : Nat) : StepOut :=
  match di.unwind_row frame_pc with
  | .error _ =>
      if stack_frames_empty then
        let callee_frame_registers := unwind_registers
        let unwound_return_address :=
          callee_frame_registers.get_return_address.bind (·.value)
        match unwind_registers.get_program_counter with
        | some calling_pc =>
            match unwind_register calling_pc callee_frame_registers none none
                unwound_return_address memory instruction_set with
            | .brk => .ret (inlined ++ [return_frame])
            | .panicked m => .panicked m
            | .cont value _ =>
                match unwind_registers.set_value_by_role .ProgramCounter value with
                | some unwind_registers' =>
                    .next (inlined ++ [return_frame]) unwind_registers' id
                | none => .next (inlined ++ [return_frame]) unwind_registers id
        | none => .next (inlined ++ [return_frame]) unwind_registers id
      else
        .ret (inlined ++ [return_frame])
  | .ok unwind_info =>
      let callee_frame_registers := unwind_registers
      match unwind_info.cfa with
      | .Expression => .panicked "not implemented"
      | .RegisterAndOffset register offset =>
          match (unwind_registers.get_register_by_dwarf_id register).bind (·.value) with
          | none => .ret (inlined ++ [return_frame])
          | some reg_val =>
              if reg_val.is_zero then
                .ret (inlined ++ [return_frame])
              else
                match reg_val.try_into_u64 with
                | .error e => .fail (.Register e)
                | .ok base =>
                    match add_to_address base offset
                        unwind_registers.get_address_size_bytes with
                    | none => .panicked "UNWIND: Address size not supported"
                    | some unwind_cfa =>
                        match unwind_registers_loop callee_frame_registers
                            unwind_info (some unwind_cfa) memory instruction_set
                            unwind_registers.regs none with
                        | .panicked m => .panicked m
                        | .stopped => .ret (inlined ++ [return_frame])
                        | .done regs' =>
                            post_unwind_check exception_handler memory frame_pc
                              (inlined ++ [return_frame]) ⟨regs'⟩ id

/-- One full iteration of the `'unwind` loop, translated from
`debug_info.rs`.  `acc_empty` tells whether frames from earlier iterations
exist (the source reads the accumulated list only through
`stack_frames.is_empty()`). -/
def unwind_step (di : DebugInfoModel) (exception_handler : ExceptionHandler)
    (instruction_set : Option InstructionSet) (memory : Memory)
    (acc_empty : Bool) (unwind_registers : DebugRegisters) (id : Nat) : StepOut :=
  match unwind_registers.get_program_counter.bind (·.value) with
  | none => .ret []
  | some frame_pc_register_value =>
      let exception_info := exception_probe exception_handler memory unwind_registers
      match frame_pc_register_value.try_into_u64 with
      | .error _ =>
          .fail (.Register
            "Cannot convert register value for program counter to a 64-bit integer value")
      | .ok frame_pc =>
          match get_stackframe_info di frame_pc unwind_registers id with
          | .panicked m => .panicked m
          | .err _ => .ret []
          | .ok (cached_stack_frames, id1) =>
              let inlined := (cached_stack_frames.drop 1).reverse
              let rfo := iteration_return_frame di exception_info frame_pc
                unwind_registers cached_stack_frames.head? id1
              let return_frame := rfo.1
              let only_exception := rfo.2.1
              let id2 := rfo.2.2
              match unwind_registers.get_return_address with
              | none => .ret (inlined ++ [return_frame])
              | some check_return_address =>
                  if check_return_address.is_max_value || check_return_address.is_zero then
                    .ret (inlined ++ [return_frame])
                  else
                    let exception_shortcut :=
                      match exception_info with
                      | some exception_info =>
                          if only_exception then
                            some (StepOut.next (inlined ++ [return_frame])
                              exception_info.calling_frame_registers id2)
                          else none
                      | none => none
                    match exception_shortcut with
                    | some out => out
                    | none =>
                        unwind_step_cfi di exception_handler instruction_set memory
                          (acc_empty && inlined.isEmpty) unwind_registers frame_pc
                          inlined return_frame id2

/-- The `'unwind` loop: `fuel` bounds the number of iterations (the source
loop is unbounded; the spec recommends a hard bound, section 5).  Every
iteration appends its frames to the accumulator; `Err` and panics discard
it exactly as in the source. -/
def unwind_go (di : DebugInfoModel) (exception_handler : ExceptionHandler)
    (instruction_set : Option InstructionSet) (memory : Memory) :
    Nat → List StackFrame → DebugRegisters → Nat → RunResult (List StackFrame)
  | 0, acc, _, _ => .ok acc
  | fuel + 1, acc, unwind_registers, id =>
      match unwind_step di exception_handler instruction_set memory acc.isEmpty
          unwind_registers id with
      | .ret frames => .ok (acc ++ frames)
      | .next frames regs' id' =>
          unwind_go di exception_handler instruction_set memory fuel
            (acc ++ frames) regs' id'
      | .fail e => .err e
      | .panicked m => .panicked m

/-- `DebugInfo::unwind_impl` translated from `debug_info.rs` (the frame-id
counter of `get_sequential_key` is threaded from 0 for one call). -/
def unwind_impl (di : DebugInfoModel) (exception_handler : ExceptionHandler)
    (instruction_set : Option InstructionSet) (memory : Memory) (fuel : Nat)
    (initial_registers : DebugRegisters) : RunResult (List StackFrame) :=
  unwind_go di exception_handler instruction_set memory fuel [] initial_registers 0

/-! ## `get_breakpoint_location` (translated) -/

structure VerifiedBreakpoint where
  address : Nat
  source_location : SourceLocation
deriving DecidableEq, Repr

/-- The exact-match predicate of the first `find`: line matches and the
requested column (made non-zero through `NonZeroU64::new`) equals the
statement's column. -/
def breakpoint_exact_pred (cur_line : Nat) (column : Option Nat)
    (statement : SourceStatementModel) : Bool :=
  statement.line == some cur_line &&
    (match column.bind (fun c => if c = 0 then none else some c) with
     | some c => statement.column == .Column c
     | none => false)

/-- The line-only predicate of the second `find`. -/
def breakpoint_line_pred (cur_line : Nat) (statement : SourceStatementModel) : Bool :=
  statement.line == some cur_line

/-- The `SourceLocation` built for a chosen statement (header file lookup plus
`find_file_and_directory`; PC bounds truncated to `u32`). -/
def statement_location (unit : UnitModel) (lp : LineProgramModel)
    (statement : SourceStatementModel) : Option SourceLocation :=
  (lp.file statement.file_index).bind fun file_entry =>
    (find_file_and_directory unit file_entry).map fun fd =>
      { line := statement.line
        column := some statement.column
        file := fd.1
        directory := fd.2
        low_pc := some (statement.low_pc % 2 ^ 32)
        high_pc := some (statement.range_end % 2 ^ 32) }

/-- The second `find` of `get_breakpoint_location`: the first statement on
the requested line, used only when its source location resolves. -/
def breakpoint_fallback (unit : UnitModel) (lp : LineProgramModel)
    (statements : List SourceStatementModel) (cur_line : Nat) :
    Option (Nat × SourceLocation) :=
  match statements.find? (breakpoint_line_pred cur_line) with
  | some statement =>
      match statement_location unit lp statement with
      | some halt_location => some (statement.low_pc, halt_location)
      | none => none
  | none => none

/-- The two-stage statement selection of `get_breakpoint_location`: first the
statement with the exact `(line, column)` match, then the first statement on
the line; either is used only when its source location resolves. -/
def breakpoint_statement_search (unit : UnitModel) (lp : LineProgramModel)
    (statements : List SourceStatementModel) (cur_line : Nat)
    (column : Option Nat) : Option (Nat × SourceLocation) :=
  match statements.find? (breakpoint_exact_pred cur_line column) with
  | some statement =>
      match statement_location unit lp statement with
      | some halt_location => some (statement.low_pc, halt_location)
      | none => breakpoint_fallback unit lp statements cur_line
  | none => breakpoint_fallback unit lp statements cur_line

/-- Result of scanning one unit / file for the requested breakpoint: found,
keep looking, or a propagated error (`?` on row iteration or on
`SourceStatements::new`). -/
inductive BpScan where
  | found (vb : VerifiedBreakpoint)
  | notFound
  | failed (e : DebugError)
deriving DecidableEq, Repr

/-- The row scan of `get_breakpoint_location`: rows of other files are
skipped; the first row on the requested line triggers the statement build and
selection, and a failed selection keeps scanning. -/
def breakpoint_scan_rows (unit : UnitModel) (lp : LineProgramModel)
    (path : PathModel) (line : Nat) (column : Option Nat) :
    List RowModel → BpScan
  | [] => .notFound
  | row :: rest =>
      let row_path := row.file.bind (get_path unit)
      if (row_path.map fun p => !canonical_path_eq path p).getD true then
        breakpoint_scan_rows unit lp path line column rest
      else
        match row.line with
        | some cur_line =>
            if cur_line == line then
              match lp.source_statements row.address with
              | .error e => .failed e
              | .ok statements =>
                  match breakpoint_statement_search unit lp statements cur_line column with
                  | some hit => .found ⟨hit.1, hit.2⟩
                  | none => breakpoint_scan_rows unit lp path line column rest
            else
              breakpoint_scan_rows unit lp path line column rest
        | none => breakpoint_scan_rows unit lp path line column rest

/-- The file-entry loop of `get_breakpoint_location`: each header file entry
whose combined path matches the request triggers a full row scan. -/
def breakpoint_scan_files (unit : UnitModel) (lp : LineProgramModel)
    (path : PathModel) (line : Nat) (column : Option Nat) :
    List FileEntryModel → BpScan
  | [] => .notFound
  | file_name :: rest =>
      if ((get_path unit file_name).map fun p => canonical_path_eq path p).getD false then
        match lp.rows with
        | .error e => .failed e
        | .ok rows =>
            match breakpoint_scan_rows unit lp path line column rows with
            | .notFound => breakpoint_scan_files unit lp path line column rest
            | out => out
      else
        breakpoint_scan_files unit lp path line column rest

def breakpoint_scan_units (path : PathModel) (line : Nat) (column : Option Nat) :
    List UnitModel → BpScan
  | [] => .notFound
  | unit :: rest =>
      match unit.line_program with
      | none => breakpoint_scan_units path line column rest
      | some lp =>
          match breakpoint_scan_files unit lp path line column lp.file_names with
          | .notFound => breakpoint_scan_units path line column rest
          | out => out

/-- `DebugInfo::get_breakpoint_location` translated from `debug_info.rs`; the
formatted payload of the final error is abbreviated to its fixed prefix. -/
def get_breakpoint_location (di : DebugInfoModel) (path : PathModel)
    (line : Nat) (column : Option Nat) :
    Except DebugError VerifiedBreakpoint :=
  match breakpoint_scan_units path line column di.units with
  | .found vb => .ok vb
  | .failed e => .error e
  | .notFound => .error (.Other "No valid breakpoint information found")

/-! ## `cache_deferred_variables` (translated) -/

/-- The DWARF-driven expansion bodies of `cache_deferred_variables`
(`extract_type` / `process_tree` / `adopt_grand_children`, which live outside
the translated file) as an oracle record; each receives the cache, the parent,
the offset being expanded (and for reference/type expansion the parent's unit
header offset) and returns the updated cache.  Memory, the frame registers and
the frame base are absorbed into the oracles. -/
structure CacheOps where
  expand_reference : VariableCache → Variable → Nat → Nat → Except DebugError VariableCache
  expand_type : VariableCache → Variable → Nat → Nat → Except DebugError VariableCache
  expand_direct : VariableCache → Variable → Nat → Except DebugError VariableCache

/-- `DebugInfo::cache_deferred_variables` translated from `debug_info.rs`:
invalid parents are a no-op; the three deferred node kinds expand only when
the parent currently has no children (and carries a unit header offset); every
other node kind is a no-op. -/
def cache_deferred_variables (ops : CacheOps) (cache : VariableCache)
    (parent_variable : Variable) : Except DebugError VariableCache :=
  if !parent_variable.is_valid then
    .ok cache
  else
    match parent_variable.variable_node_type with
    | .ReferenceOffset reference_offset => do
        let has_children ← cache.has_children parent_variable
        if !has_children then
          match parent_variable.unit_header_offset with
          | some header_offset =>
              ops.expand_reference cache parent_variable reference_offset header_offset
          | none => .ok cache
        else
          .ok cache
    | .TypeOffset type_offset => do
        let has_children ← cache.has_children parent_variable
        if !has_children then
          match parent_variable.unit_header_offset with
          | some header_offset =>
              ops.expand_type cache parent_variable type_offset header_offset
          | none => .ok cache
        else
          .ok cache
    | .DirectLookup => do
        let has_children ← cache.has_children parent_variable
        if !has_children then
          match parent_variable.unit_header_offset with
          | some header_offset =>
              ops.expand_direct cache parent_variable header_offset
          | none => .ok cache
        else
          .ok cache
    | .Leaf => .ok cache

/-! ## `from_raw` (translated) -/

/-- A section of the parsed ELF object (external `object` crate):
`uncompressed_data` is `none` when decompression fails. -/
structure ElfSection where
  name : String
  uncompressed_data : Option (List Nat)
deriving DecidableEq, Repr

structure ElfFile where
  sections : List ElfSection
deriving DecidableEq, Repr

def ElfFile.section_by_name (f : ElfFile) (name : String) : Option ElfSection :=
  f.sections.find? (fun s => s.name == name)

/-- The `load_section` closure of `from_raw`: a missing section or failed
decompression yields the empty slice, and the closure itself never fails. -/
def load_section (object : ElfFile) (name : String) : List Nat :=
  ((object.section_by_name name).bind (·.uncompressed_data)).getD []

/-- The loaded, immutable section views of `DebugInfo` (gimli parses them
lazily; no DIE interpretation happens at load). -/
structure DebugSections where
  debug_info : List Nat
  debug_abbrev : List Nat
  debug_str : List Nat
  debug_line : List Nat
  debug_frame : List Nat
  debug_addr : List Nat
  debug_loc : List Nat
  debug_loclists : List Nat
deriving DecidableEq, Repr

/-- `DebugInfo::from_raw` translated from `debug_info.rs`.  The ELF parse is
the external `object::File::parse`, taken as a parameter; its error converts
into `DebugError::Parse` (via `From`, per the spec's error surface).  All
section loads go through `load_section` and cannot fail. -/
def from_raw (parse : List Nat → Except String ElfFile) (data : List Nat) :
    Except DebugError DebugSections :=
  match parse data with
  | .error e => .error (.Parse e)
  | .ok object =>
      .ok
        { debug_info := load_section object ".debug_info"
          debug_abbrev := load_section object ".debug_abbrev"
          debug_str := load_section object ".debug_str"
          debug_line := load_section object ".debug_line"
          debug_frame := load_section object ".debug_frame"
          debug_addr := load_section object ".debug_addr"
          debug_loc := load_section object ".debug_loc"
          debug_loclists := load_section object ".debug_loclists" }

/-! # Claims -/

/-! ## C3: `add_to_address` -/

/-- C3 (counterexample): for width 4 the claim demands that a non-negative
offset whose sum overflows the width yields exactly 0, for all inputs; but the
source truncates the offset to `u32` first (`offset as u32`), so
`add_to_address(1, 2^32, 4)` returns 1 even though the mathematical sum
`1 + 2^32` overflows the 32-bit width. -/
theorem C3_counterexample :
    add_to_address 1 (2 ^ 32) 4 = some 1 ∧ ((1 : Nat) + 2 ^ 32 ≥ 2 ^ 32) := by
  constructor
  · decide
  · norm_num

/-- C3 (amended): with both operands representable in the chosen width
(`address < 2^w`, `|offset| < 2^w`; offsets within the `i64` range for width
8), `add_to_address` performs sign-correct addition: a non-negative offset
whose sum overflows the width returns exactly 0 and otherwise the exact sum; a
negative offset yields the exact sum clamped to 0 on underflow; for width 4
the result is always in `[0, 2^32)`; any other width panics (modelled as
`none`). -/
theorem C3_add_to_address :
    (∀ (a : Nat) (o : Int), a < 2 ^ 32 → 0 ≤ o → o.natAbs < 2 ^ 32 →
      add_to_address a o 4 =
        some (if a + o.toNat < 2 ^ 32 then a + o.toNat else 0)) ∧
    (∀ (a : Nat) (o : Int), a < 2 ^ 32 → o < 0 → o.natAbs < 2 ^ 32 →
      add_to_address a o 4 = some ((a + o).toNat)) ∧
    (∀ (a : Nat) (o : Int), a < 2 ^ 64 → 0 ≤ o → o < 2 ^ 63 →
      add_to_address a o 8 =
        some (if a + o.toNat < 2 ^ 64 then a + o.toNat else 0)) ∧
    (∀ (a : Nat) (o : Int), a < 2 ^ 64 → -(2 ^ 63) ≤ o → o < 0 →
      add_to_address a o 8 = some ((a + o).toNat)) ∧
    (∀ (a : Nat) (o : Int) (r : Nat), add_to_address a o 4 = some r → r < 2 ^ 32) ∧
    (∀ (a : Nat) (o : Int) (w : Nat), w ≠ 4 → w ≠ 8 → add_to_address a o w = none) := by
  refine ⟨?_, ?_, ?_, ?_, ?_, ?_⟩
  · intro a o ha ho habs
    have ht : o.toNat < 2 ^ 32 := by omega
    rw [add_to_address, if_pos rfl, if_pos ho, Nat.mod_eq_of_lt ha, Nat.mod_eq_of_lt ht]
  · intro a o ha ho habs
    obtain ⟨n, rfl⟩ : ∃ n : Nat, o = -(n : Int) := ⟨o.natAbs, by omega⟩
    have hn : (-(n : Int)).natAbs = n := by simp
    rw [add_to_address, if_pos rfl, if_neg (not_le.mpr ho), Nat.mod_eq_of_lt ha,
      hn, Nat.mod_eq_of_lt (hn ▸ habs)]
    show some (a - n) = some (((a : Int) + -(n : Int)).toNat)
    congr 1
    omega
  · intro a o _ ho _
    rw [add_to_address, if_neg (by norm_num : ¬ (8 = 4)), if_pos rfl, if_pos ho]
  · intro a o _ _ ho
    obtain ⟨n, rfl⟩ : ∃ n : Nat, o = -(n : Int) := ⟨o.natAbs, by omega⟩
    have hn : (-(n : Int)).natAbs = n := by simp
    rw [add_to_address, if_neg (by norm_num : ¬ (8 = 4)), if_pos rfl,
      if_neg (not_le.mpr ho), hn]
    congr 1
    omega
  · intro a o r h
    rw [add_to_address, if_pos rfl] at h
    have hmod : a % 2 ^ 32 < 2 ^ 32 := Nat.mod_lt _ (by norm_num)
    by_cases ho : 0 ≤ o
    · rw [if_pos ho] at h
      simp only [Option.some.injEq] at h
      split at h <;> omega
    · rw [if_neg ho] at h
      simp only [Option.some.injEq] at h
      omega
  · intro a o w h4 h8
    rw [add_to_address, if_neg h4, if_neg h8]

/-- C3 (witness): the amended theorem evaluated at concrete inputs: exact sum,
overflow-to-zero, underflow clamp, the width-4 range bound and the bad-width
panic. -/
theorem C3_witness :
    add_to_address 100 7 4 = some 107 ∧
    add_to_address (2 ^ 32 - 2) 5 4 = some 0 ∧
    add_to_address 3 (-7) 4 = some 0 ∧
    add_to_address 10 (-7) 8 = some 3 ∧
    (2 : Nat) < 2 ^ 32 ∧
    add_to_address 9 9 16 = none := by
  refine ⟨?_, ?_, ?_, ?_, ?_, ?_⟩
  · have h := C3_add_to_address.1 100 7 (by norm_num) (by norm_num) (by norm_num)
    simpa using h
  · have h := C3_add_to_address.1 (2 ^ 32 - 2) 5 (by norm_num) (by norm_num) (by norm_num)
    rw [h]
    decide
  · have h := C3_add_to_address.2.1 3 (-7) (by norm_num) (by norm_num) (by norm_num)
    rw [h]
    rfl
  · have h := C3_add_to_address.2.2.2.1 10 (-7) (by norm_num) (by norm_num) (by norm_num)
    rw [h]
    rfl
  · exact C3_add_to_address.2.2.2.2.1 1 1 2 (by decide)
  · exact C3_add_to_address.2.2.2.2.2 9 9 16 (by norm_num) (by norm_num)

/-! ## C4: `unwind_program_counter_register` -/

/-- C4: `unwind_program_counter_register` returns `None` for a zero or
all-ones return address; a surviving 32-bit value has its low bit cleared
under Thumb-2 and passes through otherwise; a 64-bit value passes through; a
128-bit value yields `None`. -/
theorem C4_unwind_program_counter_register :
    ∀ (ra : RegisterValue) (iset : Option InstructionSet),
      ((ra.is_zero || ra.is_max_value) = true →
        unwind_program_counter_register ra iset = none) ∧
      (∀ v, ra = .U32 v → ra.is_zero = false → ra.is_max_value = false →
        (iset = some .Thumb2 →
          unwind_program_counter_register ra iset = some (.U32 (v &&& 0xFFFFFFFE))) ∧
        (iset ≠ some .Thumb2 →
          unwind_program_counter_register ra iset = some (.U32 v))) ∧
      (∀ v, ra = .U64 v → ra.is_zero = false → ra.is_max_value = false →
        unwind_program_counter_register ra iset = some (.U64 v)) ∧
      (∀ v, ra = .U128 v → unwind_program_counter_register ra iset = none) := by
  intro ra iset
  refine ⟨?_, ?_, ?_, ?_⟩
  · intro h
    rcases Bool.or_eq_true_iff.mp h with h' | h' <;>
      simp [unwind_program_counter_register, h']
  · rintro v rfl hz hm
    constructor
    · intro hthumb
      simp [unwind_program_counter_register, hm, hz, hthumb]
    · intro hthumb
      simp [unwind_program_counter_register, hm, hz, hthumb]
  · rintro v rfl hz hm
    simp [unwind_program_counter_register, hm, hz]
  · rintro v rfl
    by_cases hm : (RegisterValue.U128 v).is_max_value
    · simp [unwind_program_counter_register, hm]
    · by_cases hz : (RegisterValue.U128 v).is_zero
      · simp [unwind_program_counter_register, hz]
      · simp [unwind_program_counter_register,
          Bool.not_eq_true _ ▸ hm, Bool.not_eq_true _ ▸ hz, hm, hz]

/-- C4 (witness): concrete evaluations through the theorem: a max return
address, a Thumb-2 low-bit clear, a 64-bit pass-through and a 128-bit
rejection. -/
theorem C4_witness :
    unwind_program_counter_register (.U32 (2 ^ 32 - 1)) (some .Thumb2) = none ∧
    unwind_program_counter_register (.U32 0x185) (some .Thumb2) = some (.U32 0x184) ∧
    unwind_program_counter_register (.U64 0x1000) (some .Thumb2) = some (.U64 0x1000) ∧
    unwind_program_counter_register (.U128 7) none = none := by
  refine ⟨?_, ?_, ?_, ?_⟩
  · exact (C4_unwind_program_counter_register (.U32 (2 ^ 32 - 1)) (some .Thumb2)).1 (by decide)
  · have h := ((C4_unwind_program_counter_register (.U32 0x185) (some .Thumb2)).2.1 0x185
      rfl (by decide) (by decide)).1 rfl
    rw [h]
    rfl
  · exact (C4_unwind_program_counter_register (.U64 0x1000) (some .Thumb2)).2.2.1 0x1000
      rfl (by decide) (by decide)
  · exact (C4_unwind_program_counter_register (.U128 7) none).2.2.2 7 rfl

/-! ## C8: `from_raw` -/

/-- C8: loading never fails because of an absent section — each missing
section is synthesized as the empty view and loading succeeds for any ELF the
parser accepts; ELF parse errors surface as `DebugError::Parse`. -/
theorem C8_from_raw :
    ∀ (parse : List Nat → Except String ElfFile) (data : List Nat),
      (∀ f, parse data = .ok f →
        from_raw parse data = .ok
          { debug_info := load_section f ".debug_info"
            debug_abbrev := load_section f ".debug_abbrev"
            debug_str := load_section f ".debug_str"
            debug_line := load_section f ".debug_line"
            debug_frame := load_section f ".debug_frame"
            debug_addr := load_section f ".debug_addr"
            debug_loc := load_section f ".debug_loc"
            debug_loclists := load_section f ".debug_loclists" }) ∧
      (∀ f name, f.section_by_name name = none → load_section f name = []) ∧
      (∀ e, parse data = .error e → from_raw parse data = .error (.Parse e)) := by
  intro parse data
  refine ⟨?_, ?_, ?_⟩
  · intro f h
    simp [from_raw, h]
  · intro f name h
    simp [load_section, h]
  · intro e h
    simp [from_raw, h]

/-- C8 (witness): a parser accepting an ELF with no DWARF sections at all
still loads, with every view empty; a failing parse yields `Parse`. -/
theorem C8_witness :
    from_raw (fun _ => .ok ⟨[]⟩) [] = .ok
      { debug_info := [], debug_abbrev := [], debug_str := [], debug_line := []
        debug_frame := [], debug_addr := [], debug_loc := [], debug_loclists := [] } ∧
    load_section ⟨[]⟩ ".debug_frame" = [] ∧
    from_raw (fun _ => .error "bad magic") [] = .error (.Parse "bad magic") := by
  refine ⟨?_, ?_, ?_⟩
  · have h := (C8_from_raw (fun _ => .ok ⟨[]⟩) []).1 ⟨[]⟩ rfl
    rw [h]
    rfl
  · exact (C8_from_raw (fun _ => .ok ⟨[]⟩) []).2.1 ⟨[]⟩ ".debug_frame" rfl
  · exact (C8_from_raw (fun _ => .error "bad magic") []).2.2 "bad magic" rfl

/-! ## C9: `cache_deferred_variables` -/

/-- C9: deferred expansion is gated on the parent having no children — when
children already exist, a call on a `ReferenceOffset`, `TypeOffset` or
`DirectLookup` parent returns `Ok` and leaves the cache untouched; a call on
any other (leaf) node kind is always a no-op returning `Ok`. -/
theorem C9_cache_deferred_variables :
    ∀ (ops : CacheOps) (cache : VariableCache) (parent : Variable),
      (((∃ off, parent.variable_node_type = .ReferenceOffset off) ∨
        (∃ off, parent.variable_node_type = .TypeOffset off) ∨
        parent.variable_node_type = .DirectLookup) →
        cache.has_children parent = .ok true →
        cache_deferred_variables ops cache parent = .ok cache) ∧
      (parent.variable_node_type = .Leaf →
        cache_deferred_variables ops cache parent = .ok cache) := by
  intro ops cache parent
  constructor
  · intro hkind hchildren
    by_cases hvalid : parent.is_valid
    · rcases hkind with ⟨off, hk⟩ | ⟨off, hk⟩ | hk <;>
        simp [cache_deferred_variables, hvalid, hk, hchildren, Bind.bind, Except.bind]
    · simp [cache_deferred_variables, hvalid]
  · intro hk
    by_cases hvalid : parent.is_valid <;>
      simp [cache_deferred_variables, hvalid, hk]

/-- C9 (witness): a `ReferenceOffset` parent that already has a child is left
unchanged, and a leaf parent is a no-op, for a concrete cache and failing
expansion oracles (which are therefore never consulted). -/
theorem C9_witness :
    (cache_deferred_variables
      ⟨fun _ _ _ _ => .error .MissingDebugInfo,
       fun _ _ _ _ => .error .MissingDebugInfo,
       fun _ _ _ => .error .MissingDebugInfo⟩
      ⟨[⟨1, none, true, .ReferenceOffset 10, some 0⟩, ⟨2, some 1, true, .Leaf, none⟩]⟩
      ⟨1, none, true, .ReferenceOffset 10, some 0⟩ =
        .ok ⟨[⟨1, none, true, .ReferenceOffset 10, some 0⟩, ⟨2, some 1, true, .Leaf, none⟩]⟩) ∧
    (cache_deferred_variables
      ⟨fun _ _ _ _ => .error .MissingDebugInfo,
       fun _ _ _ _ => .error .MissingDebugInfo,
       fun _ _ _ => .error .MissingDebugInfo⟩
      ⟨[]⟩ ⟨7, none, true, .Leaf, some 0⟩ = .ok ⟨[]⟩) := by
  constructor
  · exact (C9_cache_deferred_variables _ _ _).1 (.inl ⟨10, rfl⟩) (by rfl)
  · exact (C9_cache_deferred_variables _ _ _).2 rfl

/-! ## C6: `get_source_location` -/

theorem row_location_bounds (unit : UnitModel) (seq : SequenceModel)
    (row : RowModel) (loc : SourceLocation)
    (h : row_location unit seq row = some loc) :
    loc.low_pc = some (seq.start % 2 ^ 32) ∧ loc.high_pc = some (seq.stop % 2 ^ 32) := by
  rw [row_location] at h
  rcases Option.map_eq_some'.mp h with ⟨fd, _, rfl⟩
  exact ⟨rfl, rfl⟩

theorem scan_rows_bounds (unit : UnitModel) (seq : SequenceModel) (address : Nat) :
    ∀ (rows : List RowModel) (prev : Option RowModel) (loc : SourceLocation),
      scan_rows unit seq address rows prev = some loc →
      loc.low_pc = some (seq.start % 2 ^ 32) ∧ loc.high_pc = some (seq.stop % 2 ^ 32) := by
  intro rows
  induction rows with
  | nil =>
      intro prev loc h
      simp [scan_rows] at h
  | cons row rest ih =>
      intro prev loc h
      rw [scan_rows] at h
      by_cases hlt : address < row.address
      · rw [if_pos hlt] at h
        cases hb : prev.bind (row_location unit seq) with
        | none => rw [hb] at h; exact ih _ _ h
        | some loc' =>
            rw [hb] at h
            injection h with h
            subst h
            rcases Option.bind_eq_some.mp hb with ⟨p, _, hp⟩
            exact row_location_bounds _ _ _ _ hp
      · rw [if_neg hlt] at h
        by_cases haddr : row.address = address
        · rw [if_pos haddr] at h
          cases hb : row_location unit seq row with
          | none => rw [hb] at h; exact ih _ _ h
          | some loc' =>
              rw [hb] at h
              injection h with h
              subst h
              exact row_location_bounds _ _ _ _ hb
        · rw [if_neg haddr] at h
          exact ih _ _ h

theorem scan_ranges_found (unit : UnitModel) (address : Nat) :
    ∀ (ranges : List (Nat × Nat)) (loc : SourceLocation),
      scan_ranges unit address ranges = .found loc →
      ∃ lp seqs seq, unit.line_program = some lp ∧ lp.sequences = .ok seqs ∧
        seq ∈ seqs ∧ seq.start ≤ address ∧ address < seq.stop ∧
        loc.low_pc = some (seq.start % 2 ^ 32) ∧
        loc.high_pc = some (seq.stop % 2 ^ 32) := by
  intro ranges
  induction ranges with
  | nil =>
      intro loc h
      simp [scan_ranges] at h
  | cons range rest ih =>
      intro loc h
      rw [scan_ranges] at h
      by_cases hr : range.1 ≤ address ∧ address < range.2
      · rw [if_pos hr] at h
        cases hlp : unit.line_program with
        | none => rw [hlp] at h; cases h
        | some lp =>
            rw [hlp] at h
            dsimp only at h
            cases hseqs : lp.sequences with
            | error e => rw [hseqs] at h; dsimp only at h; rw [← hlp]; exact ih _ h
            | ok seqs =>
                rw [hseqs] at h
                dsimp only at h
                cases hfind : seqs.find?
                    (fun seq => seq.start ≤ address && address < seq.stop) with
                | none => rw [hfind] at h; dsimp only at h; rw [← hlp]; exact ih _ h
                | some seq =>
                    rw [hfind] at h
                    dsimp only at h
                    cases hscan : scan_rows unit seq address seq.rows none with
                    | none => rw [hscan] at h; dsimp only at h; rw [← hlp]; exact ih _ h
                    | some loc' =>
                        rw [hscan] at h
                        dsimp only at h
                        injection h with h
                        subst h
                        have hmem := List.mem_of_find?_eq_some hfind
                        have hpred := List.find?_some hfind
                        simp only [Bool.and_eq_true, decide_eq_true_eq] at hpred
                        have hbounds := scan_rows_bounds unit seq address _ _ _ hscan
                        exact ⟨lp, seqs, seq, rfl, hseqs, hmem, hpred.1, hpred.2,
                          hbounds.1, hbounds.2⟩
      · rw [if_neg hr] at h
        exact ih _ h

theorem get_source_location_units_found (address : Nat) :
    ∀ (units : List UnitModel) (loc : SourceLocation),
      get_source_location_units address units = some loc →
      ∃ unit ∈ units, ∃ lp seqs seq, unit.line_program = some lp ∧
        lp.sequences = .ok seqs ∧ seq ∈ seqs ∧
        seq.start ≤ address ∧ address < seq.stop ∧
        loc.low_pc = some (seq.start % 2 ^ 32) ∧
        loc.high_pc = some (seq.stop % 2 ^ 32) := by
  intro units
  induction units with
  | nil =>
      intro loc h
      simp [get_source_location_units] at h
  | cons unit rest ih =>
      intro loc h
      rw [get_source_location_units] at h
      split at h
      · rcases ih _ h with ⟨u, hu, rest⟩
        exact ⟨u, List.mem_cons_of_mem _ hu, rest⟩
      · split at h
        · injection h with h
          subst h
          rcases scan_ranges_found unit address _ _ ‹_› with ⟨lp, seqs, seq, hrest⟩
          exact ⟨unit, List.mem_cons_self _ _, lp, seqs, seq, hrest⟩
        · cases h
        · rcases ih _ h with ⟨u, hu, rest⟩
          exact ⟨u, List.mem_cons_of_mem _ hu, rest⟩

/-- C6 (amended): whenever `get_source_location` returns a `SourceLocation`
(and every line-program sequence ends below `2^32`, so that the `u32`
truncation of the bounds is lossless), the returned `[low_pc, high_pc)`
interval contains the PC.  Totality over all PCs inside a unit's ranges does
not hold — see the counterexample. -/
theorem C6_get_source_location :
    ∀ (di : DebugInfoModel) (address : Nat) (loc : SourceLocation),
      (∀ unit ∈ di.units, ∀ lp, unit.line_program = some lp →
        ∀ seqs, lp.sequences = .ok seqs → ∀ seq ∈ seqs, seq.stop < 2 ^ 32) →
      get_source_location di address = some loc →
      ∃ lo hi, loc.low_pc = some lo ∧ loc.high_pc = some hi ∧
        lo ≤ address ∧ address < hi := by
  intro di address loc hfit h
  rcases get_source_location_units_found address di.units loc h with
    ⟨unit, hu, lp, seqs, seq, hlp, hseqs, hseq, hlo, hhi, hlow, hhigh⟩
  have hstop : seq.stop < 2 ^ 32 := hfit unit hu lp hlp seqs hseqs seq hseq
  have hstart : seq.start < 2 ^ 32 := lt_of_le_of_lt (le_of_lt (lt_of_le_of_lt hlo hhi)) hstop
  refine ⟨seq.start % 2 ^ 32, seq.stop % 2 ^ 32, hlow, hhigh, ?_, ?_⟩
  · rw [Nat.mod_eq_of_lt hstart]
    exact hlo
  · rw [Nat.mod_eq_of_lt hstop]
    exact hhi

/-- A unit whose address ranges contain the PC but which carries no line
program: `get_source_location` answers `None` for PCs inside the range. -/
def c6_unit : UnitModel :=
  { address_size := 4
    ranges := .ok [(0, 100)]
    line_program := none
    comp_dir := none
    get_function_dies := fun _ => .ok []
    static_cache := .error .MissingDebugInfo
    function_cache := fun _ => .error .MissingDebugInfo }

def c6_di : DebugInfoModel :=
  { units := [c6_unit], unwind_row := fun _ => .error .MissingDebugInfo }

/-- C6 (counterexample): PC 5 lies inside the (only) unit's range `[0, 100)`,
yet `get_source_location` returns `None` because the unit has no line
program — the claim's promise that every PC inside some unit's ranges gets a
`SourceLocation` fails. -/
theorem C6_counterexample :
    c6_unit.ranges = .ok [(0, 100)] ∧ (0 ≤ 5 ∧ 5 < 100) ∧
    c6_di.units = [c6_unit] ∧
    get_source_location c6_di 5 = none := by
  refine ⟨rfl, by norm_num, rfl, rfl⟩

/-- C6 (witness): a unit with one sequence `[0, 100)` and a resolvable row at
PC 5 — the theorem yields bounds `0 ≤ 5 < 100`. -/
def c6w_entry : FileEntryModel :=
  { path_name := some ⟨true, ["src", "main.rs"]⟩, directory := none }

def c6w_lp : LineProgramModel :=
  { file_names := [c6w_entry]
    rows := .ok []
    sequences := .ok [⟨0, 100,
      [{ address := 5, line := some 3, column := .Column 1, file := some c6w_entry }]⟩]
    file := fun _ => none
    source_statements := fun _ => .error .MissingDebugInfo }

def c6w_unit : UnitModel :=
  { c6_unit with line_program := some c6w_lp }

def c6w_di : DebugInfoModel :=
  { units := [c6w_unit], unwind_row := fun _ => .error .MissingDebugInfo }

theorem C6_witness :
    ∃ lo hi,
      (get_source_location c6w_di 5).bind (·.low_pc) = some lo ∧
      (get_source_location c6w_di 5).bind (·.high_pc) = some hi ∧
      lo ≤ 5 ∧ 5 < hi := by
  have hloc : get_source_location c6w_di 5 =
      some { line := some 3, column := some (.Column 1), file := some "main.rs",
             directory := some ⟨true, ["src"]⟩, low_pc := some 0, high_pc := some 100 } := by
    rfl
  have hfit : ∀ unit ∈ c6w_di.units, ∀ lp, unit.line_program = some lp →
      ∀ seqs, lp.sequences = .ok seqs → ∀ seq ∈ seqs, seq.stop < 2 ^ 32 := by
    intro unit hu lp hlp seqs hseqs seq hseq
    simp only [c6w_di, List.mem_singleton] at hu
    subst hu
    simp only [c6w_unit, c6w_lp] at hlp
    injection hlp with hlp
    subst hlp
    simp only [c6w_lp] at hseqs
    injection hseqs with hseqs
    subst hseqs
    simp only [List.mem_singleton] at hseq
    subst hseq
    norm_num
  rcases C6_get_source_location c6w_di 5 _ hfit hloc with ⟨lo, hi, h1, h2, h3, h4⟩
  exact ⟨lo, hi, by rw [hloc]; exact h1, by rw [hloc]; exact h2, h3, h4⟩

/-! ## C5: `get_breakpoint_location` -/

theorem breakpoint_fallback_line (unit : UnitModel) (lp : LineProgramModel)
    (stmts : List SourceStatementModel) (cur_line : Nat) (a : Nat)
    (loc : SourceLocation)
    (h : breakpoint_fallback unit lp stmts cur_line = some (a, loc)) :
    ∃ s ∈ stmts, a = s.low_pc ∧ s.line = some cur_line := by
  rw [breakpoint_fallback] at h
  cases hf : stmts.find? (breakpoint_line_pred cur_line) with
  | none => rw [hf] at h; cases h
  | some s =>
      rw [hf] at h
      dsimp only at h
      cases hl : statement_location unit lp s with
      | none => rw [hl] at h; cases h
      | some l =>
          rw [hl] at h
          injection h with h
          injection h with h1 h2
          subst h1
          have hpred := List.find?_some hf
          rw [breakpoint_line_pred] at hpred
          exact ⟨s, List.mem_of_find?_eq_some hf, rfl, by simpa using hpred⟩

theorem breakpoint_statement_search_line (unit : UnitModel) (lp : LineProgramModel)
    (stmts : List SourceStatementModel) (cur_line : Nat) (column : Option Nat)
    (a : Nat) (loc : SourceLocation)
    (h : breakpoint_statement_search unit lp stmts cur_line column = some (a, loc)) :
    ∃ s ∈ stmts, a = s.low_pc ∧ s.line = some cur_line := by
  rw [breakpoint_statement_search] at h
  cases hf : stmts.find? (breakpoint_exact_pred cur_line column) with
  | none =>
      rw [hf] at h
      exact breakpoint_fallback_line unit lp stmts cur_line a loc h
  | some s =>
      rw [hf] at h
      dsimp only at h
      cases hl : statement_location unit lp s with
      | none =>
          rw [hl] at h
          exact breakpoint_fallback_line unit lp stmts cur_line a loc h
      | some l =>
          rw [hl] at h
          injection h with h
          injection h with h1 h2
          subst h1
          have hpred := List.find?_some hf
          rw [breakpoint_exact_pred] at hpred
          simp only [Bool.and_eq_true, beq_iff_eq] at hpred
          exact ⟨s, List.mem_of_find?_eq_some hf, rfl, hpred.1⟩

theorem breakpoint_scan_rows_found (unit : UnitModel) (lp : LineProgramModel)
    (path : PathModel) (line : Nat) (column : Option Nat) :
    ∀ (rows : List RowModel) (vb : VerifiedBreakpoint),
      breakpoint_scan_rows unit lp path line column rows = .found vb →
      ∃ addr stmts, lp.source_statements addr = .ok stmts ∧
        ∃ s ∈ stmts, vb.address = s.low_pc ∧ s.line = some line := by
  intro rows
  induction rows with
  | nil =>
      intro vb h
      simp [breakpoint_scan_rows] at h
  | cons row rest ih =>
      intro vb h
      rw [breakpoint_scan_rows] at h
      split at h
      · exact ih _ h
      · cases hline : row.line with
        | none => rw [hline] at h; dsimp only at h; exact ih _ h
        | some cur_line =>
            rw [hline] at h
            dsimp only at h
            by_cases hcl : cur_line == line
            · rw [if_pos hcl] at h
              cases hstmts : lp.source_statements row.address with
              | error e => rw [hstmts] at h; cases h
              | ok stmts =>
                  rw [hstmts] at h
                  dsimp only at h
                  cases hsearch : breakpoint_statement_search unit lp stmts cur_line column with
                  | none => rw [hsearch] at h; dsimp only at h; exact ih _ h
                  | some hit =>
                      rw [hsearch] at h
                      dsimp only at h
                      injection h with h
                      subst h
                      rcases breakpoint_statement_search_line unit lp stmts cur_line
                          column hit.1 hit.2 (by rw [hsearch]) with ⟨s, hmem, ha, hl⟩
                      have : cur_line = line := by simpa using hcl
                      subst this
                      exact ⟨row.address, stmts, hstmts, s, hmem, ha, hl⟩
            · rw [if_neg hcl] at h
              exact ih _ h

theorem breakpoint_scan_files_found (unit : UnitModel) (lp : LineProgramModel)
    (path : PathModel) (line : Nat) (column : Option Nat) :
    ∀ (files : List FileEntryModel) (vb : VerifiedBreakpoint),
      breakpoint_scan_files unit lp path line column files = .found vb →
      ∃ addr stmts, lp.source_statements addr = .ok stmts ∧
        ∃ s ∈ stmts, vb.address = s.low_pc ∧ s.line = some line := by
  intro files
  induction files with
  | nil =>
      intro vb h
      simp [breakpoint_scan_files] at h
  | cons f rest ih =>
      intro vb h
      rw [breakpoint_scan_files] at h
      split at h
      · cases hrows : lp.rows with
        | error e => rw [hrows] at h; cases h
        | ok rows =>
            rw [hrows] at h
            dsimp only at h
            cases hscan : breakpoint_scan_rows unit lp path line column rows with
            | found vb' =>
                rw [hscan] at h
                dsimp only at h
                injection h with h
                subst h
                exact breakpoint_scan_rows_found unit lp path line column rows _ hscan
            | notFound => rw [hscan] at h; exact ih _ h
            | failed e => rw [hscan] at h; cases h
      · exact ih _ h

theorem breakpoint_scan_units_found (path : PathModel) (line : Nat)
    (column : Option Nat) :
    ∀ (units : List UnitModel) (vb : VerifiedBreakpoint),
      breakpoint_scan_units path line column units = .found vb →
      ∃ unit ∈ units, ∃ lp, unit.line_program = some lp ∧
        ∃ addr stmts, lp.source_statements addr = .ok stmts ∧
          ∃ s ∈ stmts, vb.address = s.low_pc ∧ s.line = some line := by
  intro units
  induction units with
  | nil =>
      intro vb h
      simp [breakpoint_scan_units] at h
  | cons unit rest ih =>
      intro vb h
      rw [breakpoint_scan_units] at h
      cases hlp : unit.line_program with
      | none =>
          rw [hlp] at h
          dsimp only at h
          rcases ih _ h with ⟨u, hu, rest'⟩
          exact ⟨u, List.mem_cons_of_mem _ hu, rest'⟩
      | some lp =>
          rw [hlp] at h
          dsimp only at h
          cases hscan : breakpoint_scan_files unit lp path line column lp.file_names with
          | found vb' =>
              rw [hscan] at h
              dsimp only at h
              injection h with h
              subst h
              rcases breakpoint_scan_files_found unit lp path line column _ _ hscan with
                ⟨addr, stmts, hok, hs⟩
              exact ⟨unit, List.mem_cons_self _ _, lp, hlp, addr, stmts, hok, hs⟩
          | notFound =>
              rw [hscan] at h
              rcases ih _ h with ⟨u, hu, rest'⟩
              exact ⟨u, List.mem_cons_of_mem _ hu, rest'⟩
          | failed e => rw [hscan] at h; cases h

/-- The no-match hypothesis of C5's failure branch: every source-statement
build succeeds and yields no statement on the requested line, and row
iteration never fails. -/
def no_statement_on_line (di : DebugInfoModel) (line : Nat) : Prop :=
  ∀ unit ∈ di.units, ∀ lp, unit.line_program = some lp →
    (∃ rows, lp.rows = .ok rows) ∧
    (∀ a, ∃ stmts, lp.source_statements a = .ok stmts ∧
      ∀ s ∈ stmts, s.line ≠ some line)

theorem breakpoint_scan_rows_no_line (unit : UnitModel) (lp : LineProgramModel)
    (path : PathModel) (line : Nat) (column : Option Nat)
    (hok : ∀ a, ∃ stmts, lp.source_statements a = .ok stmts ∧
      ∀ s ∈ stmts, s.line ≠ some line) :
    ∀ rows : List RowModel,
      breakpoint_scan_rows unit lp path line column rows = .notFound := by
  intro rows
  induction rows with
  | nil => rw [breakpoint_scan_rows]
  | cons row rest ih =>
      rw [breakpoint_scan_rows]
      split
      · exact ih
      · cases hline : row.line with
        | none => exact ih
        | some cur_line =>
            dsimp only
            by_cases hcl : cur_line == line
            · rw [if_pos hcl]
              rcases hok row.address with ⟨stmts, hstmts, hnone⟩
              rw [hstmts]
              dsimp only
              have hsearch : breakpoint_statement_search unit lp stmts cur_line column = none := by
                have hcl' : cur_line = line := by simpa using hcl
                subst hcl'
                rw [breakpoint_statement_search]
                have hex : stmts.find? (breakpoint_exact_pred cur_line column) = none := by
                  rw [List.find?_eq_none]
                  intro s hs
                  rw [breakpoint_exact_pred]
                  simp only [Bool.and_eq_true, beq_iff_eq, not_and]
                  intro hl
                  exact absurd hl (hnone s hs)
                have hln : stmts.find? (breakpoint_line_pred cur_line) = none := by
                  rw [List.find?_eq_none]
                  intro s hs
                  rw [breakpoint_line_pred]
                  simp only [beq_iff_eq]
                  exact hnone s hs
                rw [hex, breakpoint_fallback, hln]
              rw [hsearch]
              exact ih
            · rw [if_neg hcl]
              exact ih

theorem breakpoint_scan_files_no_line (unit : UnitModel) (lp : LineProgramModel)
    (path : PathModel) (line : Nat) (column : Option Nat)
    (hrows : ∃ rows, lp.rows = .ok rows)
    (hok : ∀ a, ∃ stmts, lp.source_statements a = .ok stmts ∧
      ∀ s ∈ stmts, s.line ≠ some line) :
    ∀ files : List FileEntryModel,
      breakpoint_scan_files unit lp path line column files = .notFound := by
  intro files
  induction files with
  | nil => rw [breakpoint_scan_files]
  | cons f rest ih =>
      rw [breakpoint_scan_files]
      split
      · rcases hrows with ⟨rows, hr⟩
        rw [hr]
        dsimp only
        rw [breakpoint_scan_rows_no_line unit lp path line column hok rows]
        exact ih
      · exact ih

/-- C5: whenever `get_breakpoint_location` succeeds, the returned address is
the `low_pc` of a source statement (of some unit's line program) whose line
equals the requested line; when no statement on the requested line exists in
any unit (and the statement/row machinery itself does not fail), the call
fails with the `Other("No valid breakpoint information found…")` error; and
among the statements of the triggering row, an exactly `(line, column)`
matching statement (with resolvable location) is preferred, with the first
statement on the line used otherwise. -/
theorem C5_get_breakpoint_location :
    ∀ (di : DebugInfoModel) (path : PathModel) (line : Nat) (column : Option Nat),
      (∀ vb, get_breakpoint_location di path line column = .ok vb →
        ∃ unit ∈ di.units, ∃ lp, unit.line_program = some lp ∧
          ∃ addr stmts, lp.source_statements addr = .ok stmts ∧
            ∃ s ∈ stmts, vb.address = s.low_pc ∧ s.line = some line) ∧
      (no_statement_on_line di line →
        get_breakpoint_location di path line column =
          .error (.Other "No valid breakpoint information found")) ∧
      (∀ unit lp stmts cur s loc,
        stmts.find? (breakpoint_exact_pred cur column) = some s →
        statement_location unit lp s = some loc →
        breakpoint_statement_search unit lp stmts cur column = some (s.low_pc, loc)) ∧
      (∀ unit lp stmts cur s loc,
        stmts.find? (breakpoint_exact_pred cur column) = none →
        stmts.find? (breakpoint_line_pred cur) = some s →
        statement_location unit lp s = some loc →
        breakpoint_statement_search unit lp stmts cur column = some (s.low_pc, loc)) := by
  intro di path line column
  refine ⟨?_, ?_, ?_, ?_⟩
  · intro vb h
    rw [get_breakpoint_location] at h
    cases hscan : breakpoint_scan_units path line column di.units with
    | found vb' =>
        rw [hscan] at h
        dsimp only at h
        injection h with h
        subst h
        exact breakpoint_scan_units_found path line column di.units _ hscan
    | notFound => rw [hscan] at h; cases h
    | failed e => rw [hscan] at h; cases h
  · intro hno
    rw [get_breakpoint_location]
    have hu : ∀ units, (∀ u ∈ units, u ∈ di.units) →
        breakpoint_scan_units path line column units = .notFound := by
      intro units
      induction units with
      | nil => intro _; rw [breakpoint_scan_units]
      | cons unit rest ih =>
          intro hsub
          rw [breakpoint_scan_units]
          cases hlp : unit.line_program with
          | none =>
              dsimp only
              exact ih (fun u hu => hsub u (List.mem_cons_of_mem _ hu))
          | some lp =>
              dsimp only
              rcases hno unit (hsub unit (List.mem_cons_self _ _)) lp hlp with ⟨h1, h2⟩
              rw [breakpoint_scan_files_no_line unit lp path line column h1 h2]
              exact ih (fun u hu => hsub u (List.mem_cons_of_mem _ hu))
    rw [hu di.units (fun _ h => h)]
  · intro unit lp stmts cur s loc hf hl
    rw [breakpoint_statement_search, hf]
    dsimp only
    rw [hl]
  · intro unit lp stmts cur s loc hne hf hl
    rw [breakpoint_statement_search, hne]
    dsimp only
    rw [breakpoint_fallback, hf]
    dsimp only
    rw [hl]

/-- Concrete fixture for the C5 witness: one unit, one file
(`/src/main.rs`), one row on line 19 column 5 at PC 0x40 and one statement
covering `[0x40, 0x44)`. -/
def c5_entry : FileEntryModel :=
  { path_name := some ⟨true, ["src", "main.rs"]⟩, directory := none }

def c5_stmt : SourceStatementModel :=
  { line := some 19, column := .Column 5, file_index := 0, low_pc := 0x40
    range_end := 0x44 }

def c5_rows : List RowModel :=
  [{ address := 0x40, line := some 19, column := .Column 5, file := some c5_entry }]

def c5_file_lookup (i : Nat) : Option FileEntryModel :=
  if i = 0 then some c5_entry else none

def c5_statements (a : Nat) : Except DebugError (List SourceStatementModel) :=
  if a = 0x40 then .ok [c5_stmt] else .ok []

def c5_lp : LineProgramModel :=
  { file_names := [c5_entry]
    rows := .ok c5_rows
    sequences := .ok []
    file := c5_file_lookup
    source_statements := c5_statements }

def c5_unit : UnitModel :=
  { address_size := 4
    ranges := .ok []
    line_program := some c5_lp
    comp_dir := none
    get_function_dies := fun _ => .ok []
    static_cache := .error .MissingDebugInfo
    function_cache := fun _ => .error .MissingDebugInfo }

def c5_di : DebugInfoModel :=
  { units := [c5_unit], unwind_row := fun _ => .error .MissingDebugInfo }

def c5_path : PathModel := ⟨true, ["src", "main.rs"]⟩

def c5_loc : SourceLocation :=
  { line := some 19, column := some (.Column 5), file := some "main.rs"
    directory := some ⟨true, ["src"]⟩, low_pc := some 0x40, high_pc := some 0x44 }

def c5_vb : VerifiedBreakpoint := ⟨0x40, c5_loc⟩

/-- C5 (witness): on the fixture, requesting `/src/main.rs:19:5` succeeds with
address 0x40 and the theorem exhibits the matching statement; requesting line
99 (absent everywhere) fails with the `Other` error; and the
exact-column/first-on-line selection conjuncts evaluated on the fixture's
statement list. -/
theorem C5_witness :
    (∃ unit ∈ c5_di.units, ∃ lp, unit.line_program = some lp ∧
      ∃ addr stmts, lp.source_statements addr = .ok stmts ∧
        ∃ s ∈ stmts, c5_vb.address = s.low_pc ∧ s.line = some 19) ∧
    get_breakpoint_location c5_di c5_path 99 (some 5) =
      .error (.Other "No valid breakpoint information found") ∧
    breakpoint_statement_search c5_unit c5_lp [c5_stmt] 19 (some 5) =
      some (c5_stmt.low_pc, c5_loc) ∧
    breakpoint_statement_search c5_unit c5_lp [c5_stmt] 19 (some 7) =
      some (c5_stmt.low_pc, c5_loc) := by
  refine ⟨?_, ?_, ?_, ?_⟩
  · exact (C5_get_breakpoint_location c5_di c5_path 19 (some 5)).1 c5_vb (by rfl)
  · refine (C5_get_breakpoint_location c5_di c5_path 99 (some 5)).2.1 ?_
    intro unit hu lp hlp
    have hu' : unit = c5_unit := by simpa [c5_di] using hu
    subst hu'
    have hlp' : lp = c5_lp := by
      have : some c5_lp = some lp := hlp
      injection this with h
      exact h.symm
    subst hlp'
    refine ⟨⟨c5_rows, rfl⟩, ?_⟩
    intro a
    by_cases ha : a = 0x40
    · subst ha
      exact ⟨[c5_stmt], rfl, by decide⟩
    · refine ⟨[], ?_, by simp⟩
      show c5_statements a = .ok []
      rw [c5_statements, if_neg ha]
  · exact (C5_get_breakpoint_location c5_di c5_path 19 (some 5)).2.2.1 c5_unit c5_lp
      [c5_stmt] 19 c5_stmt c5_loc (by rfl) (by rfl)
  · exact (C5_get_breakpoint_location c5_di c5_path 19 (some 7)).2.2.2 c5_unit c5_lp
      [c5_stmt] 19 c5_stmt c5_loc (by rfl) (by rfl) (by rfl)

/-! ## Unwinder lemmas shared by C1, C2, C7 and C10 -/

/-- Frames already accumulated are never dropped by a successful unwind: the
result extends the accumulator. -/
theorem unwind_go_extends (di : DebugInfoModel) (handler : ExceptionHandler)
    (iset : Option InstructionSet) (mem : Memory) :
    ∀ (fuel : Nat) (acc : List StackFrame) (regs : DebugRegisters) (id : Nat)
      (fs : List StackFrame),
      unwind_go di handler iset mem fuel acc regs id = .ok fs →
      ∃ t, fs = acc ++ t := by
  intro fuel
  induction fuel with
  | zero =>
      intro acc regs id fs h
      rw [unwind_go] at h
      injection h with h
      exact ⟨[], by simp [h.symm]⟩
  | succ k ih =>
      intro acc regs id fs h
      rw [unwind_go] at h
      cases hstep : unwind_step di handler iset mem acc.isEmpty regs id with
      | ret frames =>
          rw [hstep] at h
          injection h with h
          exact ⟨frames, h.symm⟩
      | next frames regs' id' =>
          rw [hstep] at h
          dsimp only at h
          rcases ih _ _ _ _ h with ⟨t, ht⟩
          exact ⟨frames ++ t, by simp [ht]⟩
      | fail e => rw [hstep] at h; cases h
      | panicked m => rw [hstep] at h; cases h

/-- The frames `get_stackframe_info` builds for one PC always end with the
frame of the innermost function, whose `pc` is the lookup address in the
register width. -/
theorem get_stackframe_info_last (di : DebugInfoModel) (address : Nat)
    (regs : DebugRegisters) :
    ∀ (units : List UnitModel) (id : Nat) (frames : List StackFrame) (id' : Nat),
      get_stackframe_info_units di address regs
        (unknown_function_name address regs.get_address_size_bytes) units id =
          .ok (frames, id') →
      frames = [] ∨ ∃ pre last, frames = pre ++ [last] ∧
        last.pc = wrap_address regs.get_address_size_bytes address := by
  intro units
  induction units with
  | nil =>
      intro id frames id' h
      rw [get_stackframe_info_units] at h
      injection h with h
      injection h with h1 h2
      exact .inl h1.symm
  | cons unit rest ih =>
      intro id frames id' h
      rw [get_stackframe_info_units] at h
      cases hdies : unit.get_function_dies address with
      | error e => rw [hdies] at h; cases h
      | ok functions =>
          rw [hdies] at h
          dsimp only at h
          by_cases hempty : functions.isEmpty
          · rw [if_pos hempty] at h
            exact ih _ _ _ h
          · rw [if_neg hempty] at h
            cases hinl : build_inlined_frames unit regs
                (unknown_function_name address regs.get_address_size_bytes)
                functions id with
            | err e => rw [hinl] at h; cases h
            | panicked m => rw [hinl] at h; cases h
            | ok out =>
                rw [hinl] at h
                dsimp only at h
                cases hlast : functions.getLast? with
                | none =>
                    exfalso
                    rw [List.getLast?_eq_none_iff] at hlast
                    rw [hlast] at hempty
                    exact hempty rfl
                | some last_function =>
                    rw [hlast] at h
                    dsimp only at h
                    injection h with h
                    injection h with h1 h2
                    refine .inr ⟨out.1, _, h1.symm, rfl⟩

/-- The head of the frames pushed by one loop iteration (inlined frames in
reverse followed by the return frame) carries the current PC in the register
width. -/
theorem first_pushed_pc (di : DebugInfoModel) (exc : Option ExceptionInfo)
    (pc64 : Nat) (regs : DebugRegisters) (cached : List StackFrame)
    (id : Nat) (tail : List StackFrame)
    (hlast : cached = [] ∨ ∃ pre last, cached = pre ++ [last] ∧
      last.pc = wrap_address regs.get_address_size_bytes pc64) :
    (((cached.drop 1).reverse ++
        [(iteration_return_frame di exc pc64 regs cached.head? id).1] ++
        tail).head?.map (·.pc)) =
      some (wrap_address regs.get_address_size_bytes pc64) := by
  rcases hlast with rfl | ⟨pre, last, rfl, hpc⟩
  · cases exc <;> simp [iteration_return_frame]
  · cases pre with
    | nil =>
        simp [iteration_return_frame, hpc]
    | cons q qs =>
        have hdrop : ((q :: qs ++ [last]).drop 1) = qs ++ [last] := rfl
        rw [hdrop, List.reverse_append]
        simp [hpc]

/-- `post_unwind_check` only ever appends to the frames it was handed. -/
theorem post_unwind_check_shape (handler : ExceptionHandler) (mem : Memory)
    (pc64 : Nat) (pushed : List StackFrame) (regs : DebugRegisters) (id : Nat) :
    (∀ δ, post_unwind_check handler mem pc64 pushed regs id = .ret δ → False) ∧
    (∀ δ r i, post_unwind_check handler mem pc64 pushed regs id = .next δ r i →
      ∃ tail, δ = pushed ++ tail) := by
  constructor
  · intro δ h
    rw [post_unwind_check] at h
    cases hpc : regs.get_program_counter.bind (·.value) with
    | none => rw [hpc] at h; cases h
    | some v =>
        rw [hpc] at h
        dsimp only at h
        cases hconv : v.try_into_u32 with
        | error e => rw [hconv] at h; cases h
        | ok v32 =>
            rw [hconv] at h
            dsimp only at h
            split at h
            · cases hset : regs.set_value_by_role .ReturnAddress (some (.U32 v32)) with
              | none => rw [hset] at h; cases h
              | some regs' =>
                  rw [hset] at h
                  dsimp only at h
                  cases hh : handler mem regs' with
                  | error e => rw [hh] at h; cases h
                  | ok info =>
                      rw [hh] at h
                      cases info <;> dsimp only at h <;> cases h
            · cases h
  · intro δ r i h
    rw [post_unwind_check] at h
    cases hpc : regs.get_program_counter.bind (·.value) with
    | none =>
        rw [hpc] at h
        injection h with h1 h2 h3
        exact ⟨[], by simp [h1.symm]⟩
    | some v =>
        rw [hpc] at h
        dsimp only at h
        cases hconv : v.try_into_u32 with
        | error e => rw [hconv] at h; cases h
        | ok v32 =>
            rw [hconv] at h
            dsimp only at h
            split at h
            · cases hset : regs.set_value_by_role .ReturnAddress (some (.U32 v32)) with
              | none => rw [hset] at h; cases h
              | some regs' =>
                  rw [hset] at h
                  dsimp only at h
                  cases hh : handler mem regs' with
                  | error e => rw [hh] at h; cases h
                  | ok info =>
                      rw [hh] at h
                      cases info with
                      | none =>
                          dsimp only at h
                          injection h with h1 h2 h3
                          exact ⟨[], by simp [h1.symm]⟩
                      | some details =>
                          dsimp only at h
                          injection h with h1 h2 h3
                          exact ⟨_, h1.symm⟩
            · injection h with h1 h2 h3
              exact ⟨[], by simp [h1.symm]⟩

/-- `unwind_step_cfi` only emits the inlined frames followed by the return
frame (plus possibly a synthetic exception frame). -/
theorem unwind_step_cfi_shape (di : DebugInfoModel) (handler : ExceptionHandler)
    (iset : Option InstructionSet) (mem : Memory) (se : Bool)
    (regs : DebugRegisters) (pc64 : Nat) (inlined : List StackFrame)
    (rf : StackFrame) (id : Nat) :
    (∀ δ, unwind_step_cfi di handler iset mem se regs pc64 inlined rf id = .ret δ →
      ∃ tail, δ = inlined ++ [rf] ++ tail) ∧
    (∀ δ r i, unwind_step_cfi di handler iset mem se regs pc64 inlined rf id = .next δ r i →
      ∃ tail, δ = inlined ++ [rf] ++ tail) := by
  constructor
  · intro δ h
    rw [unwind_step_cfi] at h
    cases hrow : di.unwind_row pc64 with
    | error e =>
        rw [hrow] at h
        dsimp only at h
        split at h
        · cases hpcr : regs.get_program_counter with
          | none => rw [hpcr] at h; cases h
          | some calling_pc =>
              rw [hpcr] at h
              dsimp only at h
              cases hur : unwind_register calling_pc regs none none
                  (regs.get_return_address.bind (·.value)) mem iset with
              | brk =>
                  rw [hur] at h
                  injection h with h
                  exact ⟨[], by simp [h.symm]⟩
              | panicked m => rw [hur] at h; cases h
              | cont v u =>
                  rw [hur] at h
                  dsimp only at h
                  cases hset : regs.set_value_by_role .ProgramCounter v with
                  | none => rw [hset] at h; cases h
                  | some regs' => rw [hset] at h; cases h
        · injection h with h
          exact ⟨[], by simp [h.symm]⟩
    | ok unwind_info =>
        rw [hrow] at h
        dsimp only at h
        cases hcfa : unwind_info.cfa with
        | Expression => rw [hcfa] at h; cases h
        | RegisterAndOffset register offset =>
            rw [hcfa] at h
            dsimp only at h
            cases hrv : (regs.get_register_by_dwarf_id register).bind (·.value) with
            | none =>
                rw [hrv] at h
                injection h with h
                exact ⟨[], by simp [h.symm]⟩
            | some reg_val =>
                rw [hrv] at h
                dsimp only at h
                split at h
                · injection h with h
                  exact ⟨[], by simp [h.symm]⟩
                · cases hconv : reg_val.try_into_u64 with
                  | error e => rw [hconv] at h; cases h
                  | ok base =>
                      rw [hconv] at h
                      dsimp only at h
                      cases hadd : add_to_address base offset
                          regs.get_address_size_bytes with
                      | none => rw [hadd] at h; cases h
                      | some unwind_cfa =>
                          rw [hadd] at h
                          dsimp only at h
                          cases hloop : unwind_registers_loop regs unwind_info
                              (some unwind_cfa) mem iset regs.regs none with
                          | panicked m => rw [hloop] at h; cases h
                          | stopped =>
                              rw [hloop] at h
                              injection h with h
                              exact ⟨[], by simp [h.symm]⟩
                          | done regs' =>
                              rw [hloop] at h
                              dsimp only at h
                              exact ((post_unwind_check_shape handler mem pc64
                                (inlined ++ [rf]) ⟨regs'⟩ id).1 δ h).elim
  · intro δ r i h
    rw [unwind_step_cfi] at h
    cases hrow : di.unwind_row pc64 with
    | error e =>
        rw [hrow] at h
        dsimp only at h
        split at h
        · cases hpcr : regs.get_program_counter with
          | none =>
              rw [hpcr] at h
              injection h with h1 h2 h3
              exact ⟨[], by simp [h1.symm]⟩
          | some calling_pc =>
              rw [hpcr] at h
              dsimp only at h
              cases hur : unwind_register calling_pc regs none none
                  (regs.get_return_address.bind (·.value)) mem iset with
              | brk => rw [hur] at h; cases h
              | panicked m => rw [hur] at h; cases h
              | cont v u =>
                  rw [hur] at h
                  dsimp only at h
                  cases hset : regs.set_value_by_role .ProgramCounter v with
                  | none =>
                      rw [hset] at h
                      injection h with h1 h2 h3
                      exact ⟨[], by simp [h1.symm]⟩
                  | some regs2 =>
                      rw [hset] at h
                      injection h with h1 h2 h3
                      exact ⟨[], by simp [h1.symm]⟩
        · cases h
    | ok unwind_info =>
        rw [hrow] at h
        dsimp only at h
        cases hcfa : unwind_info.cfa with
        | Expression => rw [hcfa] at h; cases h
        | RegisterAndOffset register offset =>
            rw [hcfa] at h
            dsimp only at h
            cases hrv : (regs.get_register_by_dwarf_id register).bind (·.value) with
            | none => rw [hrv] at h; cases h
            | some reg_val =>
                rw [hrv] at h
                dsimp only at h
                split at h
                · cases h
                · cases hconv : reg_val.try_into_u64 with
                  | error e => rw [hconv] at h; cases h
                  | ok base =>
                      rw [hconv] at h
                      dsimp only at h
                      cases hadd : add_to_address base offset
                          regs.get_address_size_bytes with
                      | none => rw [hadd] at h; cases h
                      | some unwind_cfa =>
                          rw [hadd] at h
                          dsimp only at h
                          cases hloop : unwind_registers_loop regs unwind_info
                              (some unwind_cfa) mem iset regs.regs none with
                          | panicked m => rw [hloop] at h; cases h
                          | stopped => rw [hloop] at h; cases h
                          | done regs2 =>
                              rw [hloop] at h
                              dsimp only at h
                              exact (post_unwind_check_shape handler mem pc64
                                (inlined ++ [rf]) ⟨regs2⟩ id).2 δ r i h

/-- Outcome shapes of one unwind iteration when the PC is live and narrows:
an error, a panic, the bare termination of the lookup-failure paths, or the
inlined frames followed by the return frame (plus a possible synthetic
exception frame), with the loop either stopping or continuing. -/
theorem unwind_step_shape (di : DebugInfoModel) (handler : ExceptionHandler)
    (iset : Option InstructionSet) (mem : Memory) (accEmpty : Bool)
    (regs : DebugRegisters) (id : Nat) (pcv : RegisterValue) (pc64 : Nat)
    (hpc : regs.get_program_counter.bind (·.value) = some pcv)
    (hconv : pcv.try_into_u64 = .ok pc64) :
    (∃ e, unwind_step di handler iset mem accEmpty regs id = .fail e) ∨
    (∃ m, unwind_step di handler iset mem accEmpty regs id = .panicked m) ∨
    unwind_step di handler iset mem accEmpty regs id = .ret [] ∨
    ∃ cached id1 tail,
      get_stackframe_info di pc64 regs id = .ok (cached, id1) ∧
      (unwind_step di handler iset mem accEmpty regs id =
          .ret ((cached.drop 1).reverse ++
            [(iteration_return_frame di (exception_probe handler mem regs) pc64
              regs cached.head? id1).1] ++ tail) ∨
       ∃ regs' id', unwind_step di handler iset mem accEmpty regs id =
          .next ((cached.drop 1).reverse ++
            [(iteration_return_frame di (exception_probe handler mem regs) pc64
              regs cached.head? id1).1] ++ tail) regs' id') := by
  rw [unwind_step, hpc]
  dsimp only
  rw [hconv]
  dsimp only
  cases hstack : get_stackframe_info di pc64 regs id with
  | panicked m => exact .inr (.inl ⟨m, rfl⟩)
  | err e => exact .inr (.inr (.inl rfl))
  | ok out =>
      obtain ⟨cached, id1⟩ := out
      dsimp only
      cases hexc : exception_probe handler mem regs with
      | none =>
          dsimp only
          cases hra : regs.get_return_address with
          | none =>
              refine .inr (.inr (.inr ⟨cached, id1, [], rfl, .inl ?_⟩))
              simp
          | some check =>
              dsimp only
              by_cases hcheck : (check.is_max_value || check.is_zero) = true
              · rw [if_pos hcheck]
                refine .inr (.inr (.inr ⟨cached, id1, [], rfl, .inl ?_⟩))
                simp
              · rw [if_neg hcheck]
                try dsimp only
                cases hout : unwind_step_cfi di handler iset mem
                    (accEmpty && ((cached.drop 1).reverse).isEmpty) regs pc64
                    ((cached.drop 1).reverse)
                    ((iteration_return_frame di none pc64 regs cached.head? id1).1)
                    ((iteration_return_frame di none pc64 regs cached.head? id1).2.2) with
                | fail e => exact .inl ⟨e, rfl⟩
                | panicked m => exact .inr (.inl ⟨m, rfl⟩)
                | ret δ =>
                    rcases (unwind_step_cfi_shape di handler iset mem _ regs pc64 _ _ _).1
                        δ hout with ⟨tail, rfl⟩
                    exact .inr (.inr (.inr ⟨cached, id1, tail, rfl, .inl rfl⟩))
                | next δ r i =>
                    rcases (unwind_step_cfi_shape di handler iset mem _ regs pc64 _ _ _).2
                        δ r i hout with ⟨tail, rfl⟩
                    exact .inr (.inr (.inr ⟨cached, id1, tail, rfl, .inr ⟨r, i, rfl⟩⟩))
      | some einfo =>
          dsimp only
          cases hra : regs.get_return_address with
          | none =>
              refine .inr (.inr (.inr ⟨cached, id1, [], rfl, .inl ?_⟩))
              simp
          | some check =>
              dsimp only
              by_cases hcheck : (check.is_max_value || check.is_zero) = true
              · rw [if_pos hcheck]
                refine .inr (.inr (.inr ⟨cached, id1, [], rfl, .inl ?_⟩))
                simp
              · rw [if_neg hcheck]
                try dsimp only
                by_cases honly :
                    (iteration_return_frame di (some einfo) pc64 regs cached.head? id1).2.1 = true
                · rw [if_pos honly]
                  dsimp only
                  refine .inr (.inr (.inr ⟨cached, id1, [], rfl,
                    .inr ⟨einfo.calling_frame_registers,
                      (iteration_return_frame di (some einfo) pc64 regs cached.head? id1).2.2, ?_⟩⟩))
                  simp
                · rw [if_neg honly]
                  dsimp only
                  cases hout : unwind_step_cfi di handler iset mem
                      (accEmpty && ((cached.drop 1).reverse).isEmpty) regs pc64
                      ((cached.drop 1).reverse)
                      ((iteration_return_frame di (some einfo) pc64 regs cached.head? id1).1)
                      ((iteration_return_frame di (some einfo) pc64 regs cached.head? id1).2.2) with
                  | fail e => exact .inl ⟨e, rfl⟩
                  | panicked m => exact .inr (.inl ⟨m, rfl⟩)
                  | ret δ =>
                      rcases (unwind_step_cfi_shape di handler iset mem _ regs pc64 _ _ _).1
                          δ hout with ⟨tail, rfl⟩
                      exact .inr (.inr (.inr ⟨cached, id1, tail, rfl, .inl rfl⟩))
                  | next δ r i =>
                      rcases (unwind_step_cfi_shape di handler iset mem _ regs pc64 _ _ _).2
                          δ r i hout with ⟨tail, rfl⟩
                      exact .inr (.inr (.inr ⟨cached, id1, tail, rfl, .inr ⟨r, i, rfl⟩⟩))

/-! ## C2: first frame and inline ordering -/

/-- C2: whenever `unwind_impl` returns a non-empty frame list, the first
frame's `pc` is the initial program counter (narrowed to `u64` and held in the
register width); and the frames built for that PC appear as
`cached.reverse ++ rest` — the inlined call-site frames precede the frame of
their enclosing non-inlined caller (the head of `cached`, which
`get_stackframe_info` builds first and `unwind_impl` pushes last). -/
theorem C2_unwind_first_frame :
    ∀ (di : DebugInfoModel) (handler : ExceptionHandler)
      (iset : Option InstructionSet) (mem : Memory) (fuel : Nat)
      (regs : DebugRegisters) (fs : List StackFrame) (pcv : RegisterValue)
      (pc64 : Nat),
      regs.get_program_counter.bind (·.value) = some pcv →
      pcv.try_into_u64 = .ok pc64 →
      unwind_impl di handler iset mem fuel regs = .ok fs →
      fs ≠ [] →
      fs.head?.map (·.pc) = some (wrap_address regs.get_address_size_bytes pc64) ∧
      ∀ cached id1, get_stackframe_info di pc64 regs 0 = .ok (cached, id1) →
        cached ≠ [] → ∃ rest, fs = cached.reverse ++ rest := by
  intro di handler iset mem fuel regs fs pcv pc64 hpc hconv h hne
  cases fuel with
  | zero =>
      rw [unwind_impl, unwind_go] at h
      injection h with h
      exact absurd h.symm hne
  | succ k =>
      rw [unwind_impl, unwind_go] at h
      rcases unwind_step_shape di handler iset mem
          ([] : List StackFrame).isEmpty regs 0 pcv pc64 hpc hconv with
        ⟨e, hstep⟩ | ⟨m, hstep⟩ | hstep | ⟨cached, id1, tail, hstack, hsub⟩
      · rw [hstep] at h; cases h
      · rw [hstep] at h; cases h
      · rw [hstep] at h
        injection h with h
        rw [List.nil_append] at h
        exact absurd h.symm hne
      · have hfs : ∃ T, fs = (cached.drop 1).reverse ++
            [(iteration_return_frame di (exception_probe handler mem regs) pc64
              regs cached.head? id1).1] ++ T := by
          rcases hsub with hstep | ⟨r, i, hstep⟩
          · rw [hstep] at h
            injection h with h
            rw [List.nil_append] at h
            exact ⟨tail, h.symm⟩
          · rw [hstep] at h
            dsimp only at h
            rcases unwind_go_extends di handler iset mem k _ r i fs h with ⟨t, ht⟩
            refine ⟨tail ++ t, ?_⟩
            rw [ht]
            simp
        obtain ⟨T, rfl⟩ := hfs
        constructor
        · exact first_pushed_pc di _ pc64 regs cached id1 T
            (get_stackframe_info_last di pc64 regs di.units 0 cached id1 hstack)
        · intro cached' id1' hstack' hcne
          rw [hstack] at hstack'
          injection hstack' with hh
          injection hh with h1 h2
          subst h1
          subst h2
          cases cached with
          | nil => exact absurd rfl hcne
          | cons c0 cs =>
              refine ⟨T, ?_⟩
              have hitf : (iteration_return_frame di
                  (exception_probe handler mem regs) pc64 regs
                  (c0 :: cs).head? id1).1 = c0 := rfl
              rw [hitf]
              simp

/-- Concrete fixture for the C2 witness: a unit whose function-DIE walk at PC
0x150 yields an outer function containing one inlined callee, registers with
PC = 0x150 and a sentinel LR, and no CFI. -/
def c2_outer : FunctionDie :=
  { low_pc := 0x100, high_pc := 0x200, inline := false, name := some "outer"
    call_location := none, frame_base := none }

def c2_callsite : SourceLocation :=
  { line := some 7, column := some (.Column 3), file := some "main.rs"
    directory := none, low_pc := none, high_pc := none }

def c2_inner : FunctionDie :=
  { low_pc := 0x140, high_pc := 0x160, inline := true, name := some "inner"
    call_location := some c2_callsite, frame_base := none }

def c2_dies (a : Nat) : Except DebugError (List FunctionDie) :=
  if a = 0x150 then .ok [c2_outer, c2_inner] else .ok []

def c2_unit : UnitModel :=
  { address_size := 4
    ranges := .ok []
    line_program := none
    comp_dir := none
    get_function_dies := c2_dies
    static_cache := .error .MissingDebugInfo
    function_cache := fun _ => .error .MissingDebugInfo }

def c2_di : DebugInfoModel :=
  { units := [c2_unit], unwind_row := fun _ => .error .MissingDebugInfo }

def c2_mkReg (did : Nat) (roles : List RegisterRole) (v : Option RegisterValue) :
    DebugRegister :=
  { dwarf_id := some did
    core_register := { id := did, roles := roles, unwind_rule := .SpecialRule }
    value := v }

def c2_regs : DebugRegisters :=
  ⟨[c2_mkReg 13 [.StackPointer] (some (.U32 0x2000)),
    c2_mkReg 14 [.ReturnAddress] (some (.U32 0xFFFFFFFF)),
    c2_mkReg 15 [.ProgramCounter] (some (.U32 0x150))]⟩

def c2_handler : ExceptionHandler := fun _ _ => .ok none

def c2_mem : Memory := fun _ => none

/-- C2 (witness): the fixture unwinds into two frames (the inlined frame for
PC 0x150 first, then the enclosing caller's call-site frame); the theorem
gives the head PC and the `cached.reverse ++ rest` decomposition. -/
theorem C2_witness :
    ∃ fs cached id1,
      unwind_impl c2_di c2_handler (some .Thumb2) c2_mem 5 c2_regs = .ok fs ∧
      get_stackframe_info c2_di 0x150 c2_regs 0 = .ok (cached, id1) ∧
      cached.length = 2 ∧
      fs.head?.map (·.pc) = some (.U32 0x150) ∧
      ∃ rest, fs = cached.reverse ++ rest := by
  obtain ⟨fs, hfs, hlen⟩ :
      ∃ fs, unwind_impl c2_di c2_handler (some .Thumb2) c2_mem 5 c2_regs = .ok fs ∧
        fs.length = 2 := ⟨_, rfl, rfl⟩
  obtain ⟨cached, id1, hc, hclen⟩ :
      ∃ c i, get_stackframe_info c2_di 0x150 c2_regs 0 = .ok (c, i) ∧
        c.length = 2 := ⟨_, _, rfl, rfl⟩
  have hne : fs ≠ [] := by
    intro hnil
    rw [hnil] at hlen
    cases hlen
  have hcne : cached ≠ [] := by
    intro hnil
    rw [hnil] at hclen
    cases hclen
  have h := C2_unwind_first_frame c2_di c2_handler (some .Thumb2) c2_mem 5 c2_regs
    fs (.U32 0x150) 0x150 rfl rfl hfs hne
  exact ⟨fs, cached, id1, hfs, hc, hclen, h.1, h.2 cached id1 hc hcne⟩

/-! ## C1: termination on a sentinel return address -/

/-- C1 (amended): once the frames for the current PC are built, the unwind
loop pushes the current frame and terminates — returning everything produced
so far — whenever the working registers carry no return-address register at
all, or the return-address register's value is zero or the all-ones maximum of
its width.  (A return-address register that is present but merely valueless
does not by itself stop the unwind — see the counterexample.) -/
theorem C1_unwind_sentinel_ra :
    ∀ (di : DebugInfoModel) (handler : ExceptionHandler)
      (iset : Option InstructionSet) (mem : Memory) (fuel : Nat)
      (regs : DebugRegisters) (pcv : RegisterValue) (pc64 : Nat)
      (cached : List StackFrame) (id1 : Nat),
      0 < fuel →
      regs.get_program_counter.bind (·.value) = some pcv →
      pcv.try_into_u64 = .ok pc64 →
      get_stackframe_info di pc64 regs 0 = .ok (cached, id1) →
      (regs.get_return_address = none ∨
        ∃ r, regs.get_return_address = some r ∧
          (r.is_max_value || r.is_zero) = true) →
      unwind_impl di handler iset mem fuel regs =
        .ok ((cached.drop 1).reverse ++
          [(iteration_return_frame di (exception_probe handler mem regs) pc64
            regs cached.head? id1).1]) := by
  intro di handler iset mem fuel regs pcv pc64 cached id1 hfuel hpc hconv hstack hra
  obtain ⟨k, rfl⟩ : ∃ k, fuel = k + 1 := ⟨fuel - 1, by omega⟩
  rw [unwind_impl, unwind_go]
  have hstep : unwind_step di handler iset mem
      ([] : List StackFrame).isEmpty regs 0 =
      .ret ((cached.drop 1).reverse ++
        [(iteration_return_frame di (exception_probe handler mem regs) pc64
          regs cached.head? id1).1]) := by
    rw [unwind_step, hpc]
    dsimp only
    rw [hconv]
    dsimp only
    rw [hstack]
    dsimp only
    rcases hra with hnone | ⟨r, hsome, hflag⟩
    · rw [hnone]
    · rw [hsome]
      dsimp only
      rw [if_pos hflag]
  rw [hstep]
  dsimp only
  rw [List.nil_append]

/-- Concrete fixture for the C1 counterexample: a return-address register that
is present but valueless, CFI at the initial PC whose rule recovers the next
PC from the stack, and a second iteration without CFI. -/
def c1x_rules (n : Nat) : RegisterRuleModel :=
  if n = 15 then .Offset 0 else .Undefined

def c1x_row : UnwindTableRow :=
  { cfa := .RegisterAndOffset 13 0, register := c1x_rules }

def c1x_unwind_row (pc : Nat) : Except DebugError UnwindTableRow :=
  if pc = 0x100 then .ok c1x_row else .error .MissingDebugInfo

def c1x_di : DebugInfoModel := { units := [], unwind_row := c1x_unwind_row }

def c1x_mem : Memory := fun a =>
  if 0x1000 ≤ a ∧ a < 0x1004 then some ((0x300 / 256 ^ (a - 0x1000)) % 256)
  else none

def c1x_regs : DebugRegisters :=
  ⟨[c2_mkReg 13 [.StackPointer] (some (.U32 0x1000)),
    c2_mkReg 14 [.ReturnAddress] none,
    c2_mkReg 15 [.ProgramCounter] (some (.U32 0x100))]⟩

def c1x_handler : ExceptionHandler := fun _ _ => .ok none

/-- C1 (counterexample): the return-address register of the working registers
has no value, yet the unwind does not stop after pushing the current frame —
CFI recovers a PC from the stack and a second frame is produced.  The claim's
"RA has no value → push and return" fails. -/
theorem C1_counterexample :
    c1x_regs.get_return_address.bind (·.value) = none ∧
    (∃ r, c1x_regs.get_return_address = some r) ∧
    ∃ fs, unwind_impl c1x_di c1x_handler (some .Thumb2) c1x_mem 5 c1x_regs =
      .ok fs ∧ fs.length = 2 :=
  ⟨rfl, ⟨_, rfl⟩, _, rfl, rfl⟩

def c1w_di : DebugInfoModel :=
  { units := [], unwind_row := fun _ => .error .MissingDebugInfo }

def c1w_regs : DebugRegisters :=
  ⟨[c2_mkReg 13 [.StackPointer] (some (.U32 0x2001FFD0)),
    c2_mkReg 14 [.ReturnAddress] (some (.U32 0xFFFFFFFF)),
    c2_mkReg 15 [.ProgramCounter] (some (.U32 0x100))]⟩

/-- C1 (witness): a synthetic state with LR = 0xFFFFFFFF and no CFI — the
theorem applies and `unwind` returns exactly one frame. -/
theorem C1_witness :
    ∃ fs, unwind_impl c1w_di c1x_handler (some .Thumb2) c2_mem 5 c1w_regs =
      .ok fs ∧ fs.length = 1 := by
  have h := C1_unwind_sentinel_ra c1w_di c1x_handler (some .Thumb2) c2_mem 5
    c1w_regs (.U32 0x100) 0x100 [] 0 (by norm_num) rfl rfl rfl
    (.inr ⟨_, rfl, rfl⟩)
  exact ⟨_, h, rfl⟩

/-! ## C7: unimplemented CFI rules panic -/

/-- Concrete fixture for C7: CFI whose row carries an `Expression` CFA rule. -/
def c7_row : UnwindTableRow := { cfa := .Expression, register := fun _ => .Undefined }

def c7_di : DebugInfoModel := { units := [], unwind_row := fun _ => .ok c7_row }

def c7_regs : DebugRegisters :=
  ⟨[c2_mkReg 13 [.StackPointer] (some (.U32 0x2000)),
    c2_mkReg 14 [.ReturnAddress] (some (.U32 0x50)),
    c2_mkReg 15 [.ProgramCounter] (some (.U32 0x100))]⟩

/-- C7 (counterexample): on the fixture the unwind call does not return an
`Err` — it panics (`unimplemented!`), which aborts the call instead of
handing the caller an error value. -/
theorem C7_counterexample :
    unwind_impl c7_di c1x_handler (some .Thumb2) c2_mem 5 c7_regs =
      .panicked "not implemented" := rfl

/-- C7 (amended): an `Expression` CFA rule reached during unwinding, and any
per-register rule other than `Undefined`/`SameValue`/`Offset`, abort the call
through `unimplemented!` — a panic, not a returned `Err`. -/
theorem C7_unimplemented_rules :
    (∀ (di : DebugInfoModel) (handler : ExceptionHandler)
       (iset : Option InstructionSet) (mem : Memory) (fuel : Nat)
       (regs : DebugRegisters) (pcv : RegisterValue) (pc64 : Nat)
       (cached : List StackFrame) (id1 : Nat) (row : UnwindTableRow),
       0 < fuel →
       regs.get_program_counter.bind (·.value) = some pcv →
       pcv.try_into_u64 = .ok pc64 →
       get_stackframe_info di pc64 regs 0 = .ok (cached, id1) →
       exception_probe handler mem regs = none →
       (∃ r, regs.get_return_address = some r ∧
         (r.is_max_value || r.is_zero) = false) →
       di.unwind_row pc64 = .ok row →
       row.cfa = .Expression →
       unwind_impl di handler iset mem fuel regs = .panicked "not implemented") ∧
    (∀ (dr : DebugRegister) (callee : DebugRegisters) (info : UnwindTableRow)
       (cfa : Option Nat) (ura : Option RegisterValue) (mem : Memory)
       (iset : Option InstructionSet) (did : Nat),
       dr.dwarf_id = some did →
       info.register did = .Unimplemented →
       unwind_register dr callee (some info) cfa ura mem iset =
         .panicked "not implemented") := by
  constructor
  · intro di handler iset mem fuel regs pcv pc64 cached id1 row hfuel hpc hconv
      hstack hexc hra hrow hcfa
    obtain ⟨k, rfl⟩ : ∃ k, fuel = k + 1 := ⟨fuel - 1, by omega⟩
    rw [unwind_impl, unwind_go]
    have hstep : unwind_step di handler iset mem
        ([] : List StackFrame).isEmpty regs 0 = .panicked "not implemented" := by
      rw [unwind_step, hpc]
      dsimp only
      rw [hconv]
      dsimp only
      rw [hstack]
      dsimp only
      rw [hexc]
      dsimp only
      obtain ⟨r, hsome, hflag⟩ := hra
      rw [hsome]
      dsimp only
      rw [if_neg (by simp [hflag])]
      rw [unwind_step_cfi, hrow]
      dsimp only
      rw [hcfa]
    rw [hstep]
  · intro dr callee info cfa ura mem iset did hdw hrule
    rw [unwind_register, hdw]
    dsimp only [Option.bind, Option.map, Option.getD]
    rw [hrule]

/-- C7 (witness): the amended theorem applied to the `Expression` fixture and
to a register whose rule is one of the unimplemented ones. -/
theorem C7_witness :
    unwind_impl c7_di c1x_handler (some .Thumb2) c2_mem 5 c7_regs =
      .panicked "not implemented" ∧
    unwind_register (c2_mkReg 14 [.ReturnAddress] (some (.U32 0x50))) c7_regs
      (some { cfa := .Expression, register := fun _ => .Unimplemented })
      none none c2_mem (some .Thumb2) = .panicked "not implemented" := by
  constructor
  · exact C7_unimplemented_rules.1 c7_di c1x_handler (some .Thumb2) c2_mem 5
      c7_regs (.U32 0x100) 0x100 [] 0 c7_row (by norm_num) rfl rfl rfl rfl
      ⟨_, rfl, rfl⟩ rfl rfl
  · exact C7_unimplemented_rules.2 _ c7_regs _ none none c2_mem (some .Thumb2)
      14 rfl rfl

/-! ## C10: panic on a 64-bit unwound program counter -/

/-- Little-endian byte recomposition: a memory holding the base-256 digits of
`v` reads back as `v` modulo the width. -/
theorem mem_read_digits :
    ∀ (n : Nat) (m : Memory) (base v : Nat),
      (∀ i, i < n → m (base + i) = some ((v / 256 ^ i) % 256)) →
      mem_read m base n = some (v % 256 ^ n) := by
  intro n
  induction n with
  | zero =>
      intro m base v _
      rw [mem_read, pow_zero, Nat.mod_one]
  | succ k ih =>
      intro m base v h
      rw [mem_read]
      have hb : m base = some (v % 256) := by
        have h0 := h 0 (Nat.succ_pos k)
        simpa using h0
      rw [hb]
      have hrest : mem_read m (base + 1) k = some ((v / 256) % 256 ^ k) := by
        refine ih m (base + 1) (v / 256) ?_
        intro i hi
        have hsh := h (i + 1) (by omega)
        rw [show base + (i + 1) = base + 1 + i by omega] at hsh
        rw [hsh]
        congr 2
        rw [Nat.div_div_eq_div_mul, pow_succ, mul_comm (256 ^ i) 256]
      dsimp only [Option.bind]
      rw [hrest]
      simp only [Option.map_some']
      congr 1
      rw [pow_succ', Nat.mod_mul]

/-- Concrete register/CFI scaffold for C10: 64-bit registers, a CFA anchored
at SP = 0x1000 and a PC rule loading eight bytes from the CFA. -/
def c10_rules (n : Nat) : RegisterRuleModel :=
  if n = 15 then .Offset 0 else .Undefined

def c10_row : UnwindTableRow :=
  { cfa := .RegisterAndOffset 13 0, register := c10_rules }

def c10_di : DebugInfoModel := { units := [], unwind_row := fun _ => .ok c10_row }

def c10_mem (v : Nat) : Memory := fun a =>
  if 0x1000 ≤ a ∧ a < 0x1008 then some ((v / 256 ^ (a - 0x1000)) % 256) else none

def c10_sp : DebugRegister := c2_mkReg 13 [.StackPointer] (some (.U64 0x1000))

def c10_ra : DebugRegister := c2_mkReg 14 [.ReturnAddress] (some (.U64 1))

def c10_pc : DebugRegister := c2_mkReg 15 [.ProgramCounter] (some (.U64 0x200))

def c10_regs : DebugRegisters := ⟨[c10_sp, c10_ra, c10_pc]⟩

theorem c10_mem_read (v : Nat) (hlt : v < 2 ^ 64) :
    mem_read (c10_mem v) 0x1000 8 = some v := by
  have h := mem_read_digits 8 (c10_mem v) 0x1000 v ?_
  · rw [h]
    congr 1
    rw [show (256 : Nat) ^ 8 = 2 ^ 64 by norm_num]
    exact Nat.mod_eq_of_lt hlt
  · intro i hi
    show c10_mem v (0x1000 + i) = _
    rw [c10_mem]
    rw [if_pos (by omega)]
    rw [show 0x1000 + i - 0x1000 = i from by omega]

/-- C10: with 64-bit registers, whenever the per-register unwind leaves the
program counter holding a 64-bit value of at least 2^32, the EXC_RETURN check
narrows it to `u32` with an unchecked `unwrap` and `unwind_impl` panics
instead of returning a result. -/
theorem C10_unwind_panics_on_wide_pc :
    ∀ (v fuel : Nat), 2 ^ 32 ≤ v → v < 2 ^ 64 → 0 < fuel →
      unwind_impl c10_di c1x_handler none (c10_mem v) fuel c10_regs =
        .panicked "called `Result::unwrap()` on an `Err` value" := by
  intro v fuel hge hlt hfuel
  obtain ⟨k, rfl⟩ : ∃ k, fuel = k + 1 := ⟨fuel - 1, by omega⟩
  have hread := c10_mem_read v hlt
  have hreg15 : unwind_register c10_pc c10_regs (some c10_row) (some 0x1000)
      (some (.U64 1)) (c10_mem v) none = .cont (some (.U64 v)) (some (.U64 1)) := by
    have h0 : unwind_register c10_pc c10_regs (some c10_row) (some 0x1000)
        (some (.U64 1)) (c10_mem v) none =
        match (mem_read (c10_mem v) 0x1000 8).map RegisterValue.U64 with
        | some rv => .cont (some rv) (some (.U64 1))
        | none => .brk := rfl
    rw [h0, hread]
    rfl
  have hloop : unwind_registers_loop c10_regs c10_row (some 0x1000) (c10_mem v)
      none c10_regs.regs none =
      .done [{ c10_sp with value := some (.U64 0x1000) },
             { c10_ra with value := none },
             { c10_pc with value := some (.U64 v) }] := by
    rw [show c10_regs.regs = [c10_sp, c10_ra, c10_pc] from rfl]
    rw [unwind_registers_loop]
    rw [show unwind_register c10_sp c10_regs (some c10_row) (some 0x1000) none
      (c10_mem v) none = .cont (some (.U64 0x1000)) none from rfl]
    dsimp only
    rw [unwind_registers_loop]
    rw [show unwind_register c10_ra c10_regs (some c10_row) (some 0x1000) none
      (c10_mem v) none = .cont none (some (.U64 1)) from rfl]
    dsimp only
    rw [unwind_registers_loop]
    rw [hreg15]
    dsimp only
    rw [unwind_registers_loop]
  rw [unwind_impl, unwind_go]
  have hstep : unwind_step c10_di c1x_handler none (c10_mem v)
      ([] : List StackFrame).isEmpty c10_regs 0 =
      .panicked "called `Result::unwrap()` on an `Err` value" := by
    rw [unwind_step]
    rw [show c10_regs.get_program_counter.bind (·.value) = some (.U64 0x200) from rfl]
    dsimp only
    rw [show (RegisterValue.U64 0x200).try_into_u64 = .ok 0x200 from rfl]
    dsimp only
    rw [show get_stackframe_info c10_di 0x200 c10_regs 0 = .ok ([], 0) from rfl]
    dsimp only
    rw [show exception_probe c1x_handler (c10_mem v) c10_regs = none from rfl]
    dsimp only
    rw [show c10_regs.get_return_address = some c10_ra from rfl]
    dsimp only
    rw [if_neg (by decide)]
    rw [unwind_step_cfi]
    rw [show c10_di.unwind_row 0x200 = .ok c10_row from rfl]
    dsimp only
    rw [show c10_row.cfa = .RegisterAndOffset 13 0 from rfl]
    dsimp only
    rw [show (c10_regs.get_register_by_dwarf_id 13).bind (·.value) =
      some (.U64 0x1000) from rfl]
    dsimp only
    rw [if_neg (by decide)]
    rw [show (RegisterValue.U64 0x1000).try_into_u64 = .ok 0x1000 from rfl]
    dsimp only
    rw [show add_to_address 0x1000 0 c10_regs.get_address_size_bytes =
      some 0x1000 from rfl]
    dsimp only
    rw [hloop]
    dsimp only
    rw [post_unwind_check]
    rw [show (DebugRegisters.mk
        [{ c10_sp with value := some (.U64 0x1000) },
         { c10_ra with value := none },
         { c10_pc with value := some (.U64 v) }]).get_program_counter.bind
      (·.value) = some (.U64 v) from rfl]
    dsimp only
    rw [show (RegisterValue.U64 v).try_into_u32 =
      (if v < 2 ^ 32 then Except.ok v else .error "U64 too large") from rfl]
    rw [if_neg (Nat.not_lt.mpr hge)]
  rw [hstep]

/-- C10 (witness): the theorem applied at `v = 2^32` with fuel 5. -/
theorem C10_witness :
    unwind_impl c10_di c1x_handler none (c10_mem (2 ^ 32)) 5 c10_regs =
      .panicked "called `Result::unwrap()` on an `Err` value" :=
  C10_unwind_panics_on_wide_pc (2 ^ 32) 5 (by norm_num) (by norm_num) (by norm_num)

end Spec2Proof
